import Mathlib

/-!
# Inventory service: tag model and ASN reconciliation

A shallow embedding of `app/tag/model.go` (the `Tag` record and its
classification predicates) and of `processShippingNotice` from `main.go`,
followed by the properties established about them.

Conventions of the embedding:

* Go `string` is `String`; Go strings that are not valid UTF-8 are outside the model.
* Go `int64` is `Int`; the functions embedded here only compare such values.
* A Go slice is `Option (List _)`: `none` is the `nil` slice, `some []` the empty
  non-nil slice (`reflect.DeepEqual` and `== nil` tell them apart, `len` does not).
* A Go `float64` is kept as its IEEE-754 bit pattern.
* A Go `error` result is `Option String` (`none` is `nil`), and a `(value, error)`
  pair is `Except String value`.
-/

namespace Inventory

/-! ## Data model (`app/tag/model.go`) -/

/-- An IEEE-754 binary64 value kept as its bit pattern, read modulo `2^64`. -/
structure Float64 where
  bits : Nat
deriving DecidableEq, Repr

/-- Go `f == 0` on a `float64`: true for `+0` (all bits clear) and `-0` (only the sign bit set). -/
def Float64.isZero (f : Float64) : Bool :=
  f.bits % 2 ^ 63 == 0

/-- The `float64` zero value `+0`. -/
def Float64.zero : Float64 := ⟨0⟩

/-- LocationHistory is the model to record the whereabouts history of a tag. -/
structure LocationHistory where
  Location : String
  Timestamp : Int
  Source : String
deriving DecidableEq, Repr

/-- Tag is the model containing items for a Tag. -/
structure Tag where
  URI : String
  Epc : String
  ProductID : String
  FilterValue : Int
  Tid : String
  EpcEncodeFormat : String
  FacilityID : String
  Event : String
  Arrived : Int
  LastRead : Int
  Source : String
  LocationHistory : Option (List Inventory.LocationHistory)
  EpcState : String
  QualifiedState : String
  EpcContext : String
  Confidence : Float64
  CycleCount : Bool
deriving DecidableEq, Repr

/-- The Go zero value `Tag{}`. -/
def Tag.zero : Tag :=
  { URI := "", Epc := "", ProductID := "", FilterValue := 0, Tid := "",
    EpcEncodeFormat := "", FacilityID := "", Event := "", Arrived := 0, LastRead := 0,
    Source := "", LocationHistory := none, EpcState := "", QualifiedState := "",
    EpcContext := "", Confidence := Float64.zero, CycleCount := false }

/-- ASNContext represents the data marshaled into the EPCContext field for an
Advanced Shipping Notice. -/
structure ASNContext where
  ASNID : String
  EventTime : String
  SiteID : String
  ItemGTIN : String
  ItemID : String
deriving DecidableEq, Repr

/-- The Go zero value `ASNContext{}`. -/
def ASNContext.zero : ASNContext :=
  { ASNID := "", EventTime := "", SiteID := "", ItemGTIN := "", ItemID := "" }

/-- ASNInputItem is a block of metadata and list of EPCs to which the metadata applies. -/
structure ASNInputItem where
  EPCs : Option (List String)
  ItemGTIN : String
  ItemID : String
deriving DecidableEq, Repr

/-- AdvanceShippingNotice models one shipping notice of the incoming list. -/
structure AdvanceShippingNotice where
  ID : String
  EventTime : String
  SiteID : String
  Items : Option (List ASNInputItem)
deriving DecidableEq, Repr

/-- Go `len(s)` and `range s` see a nil slice as the empty one. -/
def sliceElems {α : Type} : Option (List α) → List α
  | none => []
  | some xs => xs

/-- The part of `config.AppConfig` read by the embedded functions. -/
structure AppConfig where
  AdvancedShippingNoticeFacilityID : String
  EpcFilters : List String
deriving DecidableEq, Repr

/-! ## `encoding/json` as used on `ASNContext`

`processShippingNotice` serializes an `ASNContext` with `json.Marshal` and
`IsShippingNoticeEntry` reads it back with `json.Unmarshal`.  Both are modelled
here for that one struct type, following the behaviour of the Go standard library:
the escaping of `encodeState.string` (HTML escaping on), the grammar accepted by
the scanner, the unquoting of string literals, the case-insensitive matching of
object keys against the struct's field names, and the type errors raised when a
known field receives a value that is neither a string nor `null`.
-/

namespace Json

/-- The lower-case hexadecimal digit of `n < 16` (Go's `hex` table). -/
def hexDigit (n : Nat) : Char :=
  if n < 10 then Char.ofNat (48 + n) else Char.ofNat (87 + n)

/-- The bytes `encodeState.string` writes for one character with HTML escaping on:
the quote and the backslash are backslash-escaped, newline, carriage return and tab
get their short escapes, every other control character and `<`, `>`, `&` are written
as a `u00XX` escape, the line and paragraph separators (code points 8232 and 8233)
as `u2028` and `u2029` escapes, and the rest is copied. -/
def escapeChar (c : Char) : List Char :=
  if c = '"' then ['\\', '"']
  else if c = '\\' then ['\\', '\\']
  else if c = '\n' then ['\\', 'n']
  else if c = '\r' then ['\\', 'r']
  else if c = '\t' then ['\\', 't']
  else if c.toNat < 32 ∨ c = '<' ∨ c = '>' ∨ c = '&' then
    ['\\', 'u', '0', '0', hexDigit (c.toNat / 16), hexDigit (c.toNat % 16)]
  else if c.toNat = 8232 then ['\\', 'u', '2', '0', '2', '8']
  else if c.toNat = 8233 then ['\\', 'u', '2', '0', '2', '9']
  else [c]

/-- The JSON string literal for `s`, quotes included. -/
def encodeString (s : String) : List Char :=
  '"' :: (s.data.flatMap escapeChar ++ ['"'])

/-- The output of `json.Marshal` on an `ASNContext`: the five fields in declaration
order under their JSON names.  Marshalling a struct of strings cannot fail. -/
def marshalASNContext (a : ASNContext) : String :=
  String.mk ("\x7b\"asnId\":".data ++ encodeString a.ASNID
    ++ ",\"eventTime\":".data ++ encodeString a.EventTime
    ++ ",\"siteId\":".data ++ encodeString a.SiteID
    ++ ",\"itemGtin\":".data ++ encodeString a.ItemGTIN
    ++ ",\"itemId\":".data ++ encodeString a.ItemID ++ ['}'])

/-- JSON insignificant whitespace: space, tab, carriage return, newline. -/
def isSpace (c : Char) : Bool :=
  c = ' ' ∨ c = '\t' ∨ c = '\r' ∨ c = '\n'

/-- Drops leading whitespace. -/
def skipSpace : List Char → List Char
  | [] => []
  | c :: cs => if isSpace c then skipSpace cs else c :: cs

/-- The value of a hexadecimal digit of either case. -/
def hexVal (c : Char) : Option Nat :=
  if 48 ≤ c.toNat ∧ c.toNat ≤ 57 then some (c.toNat - 48)
  else if 97 ≤ c.toNat ∧ c.toNat ≤ 102 then some (c.toNat - 87)
  else if 65 ≤ c.toNat ∧ c.toNat ≤ 70 then some (c.toNat - 55)
  else none

/-- One unit of a string literal's body: a character (written raw or with a short
escape) or the UTF-16 code unit of a `\uXXXX` escape. -/
inductive StrUnit where
  | lit (c : Char)
  | esc (n : Nat)
deriving DecidableEq, Repr

/-- The character denoted by a short escape `\e`. -/
def simpleEscape (e : Char) : Option Char :=
  if e = '"' then some '"'
  else if e = '\\' then some '\\'
  else if e = '/' then some '/'
  else if e = 'b' then some (Char.ofNat 8)
  else if e = 'f' then some (Char.ofNat 12)
  else if e = 'n' then some '\n'
  else if e = 'r' then some '\r'
  else if e = 't' then some '\t'
  else none

/-- Scans the body of a string literal, the opening quote already consumed, up to
and including the closing quote.  Raw control characters, unknown escapes and an
unterminated literal are syntax errors. -/
def scanString : List Char → Option (List StrUnit × List Char)
  | [] => none
  | c :: rest =>
    if c = '"' then some ([], rest)
    else if c = '\\' then
      match rest with
      | [] => none
      | e :: rest1 =>
        if e = 'u' then
          match rest1 with
          | h1 :: h2 :: h3 :: h4 :: rest2 =>
            match hexVal h1, hexVal h2, hexVal h3, hexVal h4 with
            | some x, some y, some z, some w =>
              match scanString rest2 with
              | some (us, r) => some (StrUnit.esc (((x * 16 + y) * 16 + z) * 16 + w) :: us, r)
              | none => none
            | _, _, _, _ => none
          | _ => none
        else
          match simpleEscape e with
          | some ch =>
            match scanString rest1 with
            | some (us, r) => some (StrUnit.lit ch :: us, r)
            | none => none
          | none => none
    else if c.toNat < 32 then none
    else
      match scanString rest with
      | some (us, r) => some (StrUnit.lit c :: us, r)
      | none => none

/-- Whether `n` is a UTF-16 surrogate code unit. -/
def isSurrogate (n : Nat) : Bool :=
  55296 ≤ n ∧ n < 57344

/-- The decoding step of `unquote`: a high surrogate escape directly followed by a
low surrogate escape is one character, any other surrogate escape becomes U+FFFD. -/
def decodeUnits : List StrUnit → List Char
  | [] => []
  | StrUnit.lit c :: us => c :: decodeUnits us
  | StrUnit.esc n :: us =>
    let tl := decodeUnits us
    if isSurrogate n then
      match us with
      | StrUnit.esc lo :: us1 =>
        if n < 56320 ∧ 56320 ≤ lo ∧ lo < 57344 then
          Char.ofNat (65536 + (n - 55296) * 1024 + (lo - 56320)) :: decodeUnits us1
        else Char.ofNat 65533 :: tl
      | _ => Char.ofNat 65533 :: tl
    else Char.ofNat n :: tl

/-- A string literal's value and the input after its closing quote. -/
def parseString (cs : List Char) : Option (String × List Char) :=
  match scanString cs with
  | some (us, r) => some (String.mk (decodeUnits us), r)
  | none => none

/-- Whether `c` is a decimal digit. -/
def isDigit (c : Char) : Bool :=
  48 ≤ c.toNat ∧ c.toNat ≤ 57

/-- Drops leading decimal digits. -/
def skipDigits : List Char → List Char
  | [] => []
  | c :: cs => if isDigit c then skipDigits cs else c :: cs

/-- Consumes `lit` from the front of the input. -/
def expectLit : List Char → List Char → Option (List Char)
  | [], cs => some cs
  | _ :: _, [] => none
  | l :: ls, c :: cs => if l = c then expectLit ls cs else none

/-- The optional fraction of a number: a dot followed by at least one digit. -/
def skipFraction : List Char → Option (List Char)
  | [] => some []
  | c :: cs =>
    if c = '.' then
      match cs with
      | [] => none
      | d :: r => if isDigit d then some (skipDigits r) else none
    else some (c :: cs)

/-- The optional exponent of a number: `e` or `E`, an optional sign, at least one digit. -/
def skipExponent : List Char → Option (List Char)
  | [] => some []
  | c :: cs =>
    if c = 'e' ∨ c = 'E' then
      match cs with
      | [] => none
      | s :: r =>
        if s = '+' ∨ s = '-' then
          match r with
          | [] => none
          | d :: r1 => if isDigit d then some (skipDigits r1) else none
        else if isDigit s then some (skipDigits r)
        else none
    else some (c :: cs)

/-- The integer part of a number: a single `0`, or a non-zero digit and more digits. -/
def skipInteger : List Char → Option (List Char)
  | [] => none
  | c :: cs =>
    if c = '0' then some cs
    else if isDigit c then some (skipDigits cs)
    else none

/-- Consumes a JSON number: optional minus, integer part, optional fraction and exponent. -/
def skipNumber (cs : List Char) : Option (List Char) :=
  let body :=
    match cs with
    | [] => []
    | c :: r => if c = '-' then r else c :: r
  match skipInteger body with
  | none => none
  | some r1 =>
    match skipFraction r1 with
    | none => none
    | some r2 => skipExponent r2

/-- What the scanner is about to read: any value, the members of an object after
its first key's position, or the elements of an array from its first element. -/
inductive Mode where
  | value
  | members
  | elements
deriving DecidableEq, Repr

/-- Checks the syntax of and skips one JSON value (or the rest of an object or an
array), as the scanner does.  `fuel` bounds the depth of the calls; twice the
length of the input plus two is enough for every input. -/
def skip : Nat → Mode → List Char → Option (List Char)
  | 0, _, _ => none
  | fuel + 1, Mode.value, cs =>
    match cs with
    | [] => none
    | c :: rest =>
      if c = '"' then
        match scanString rest with
        | some (_, r) => some r
        | none => none
      else if c = '{' then
        match skipSpace rest with
        | [] => none
        | d :: r => if d = '}' then some r else skip fuel Mode.members (d :: r)
      else if c = '[' then
        match skipSpace rest with
        | [] => none
        | d :: r => if d = ']' then some r else skip fuel Mode.elements (d :: r)
      else if c = 't' then expectLit ['r', 'u', 'e'] rest
      else if c = 'f' then expectLit ['a', 'l', 's', 'e'] rest
      else if c = 'n' then expectLit ['u', 'l', 'l'] rest
      else if c = '-' ∨ isDigit c then skipNumber (c :: rest)
      else none
  | fuel + 1, Mode.members, cs =>
    match cs with
    | [] => none
    | c :: rest =>
      if c = '"' then
        match scanString rest with
        | none => none
        | some (_, r) =>
          match skipSpace r with
          | [] => none
          | colon :: r1 =>
            if colon = ':' then
              match skip fuel Mode.value (skipSpace r1) with
              | none => none
              | some r2 =>
                match skipSpace r2 with
                | [] => none
                | d :: r3 =>
                  if d = ',' then skip fuel Mode.members (skipSpace r3)
                  else if d = '}' then some r3
                  else none
            else none
      else none
  | fuel + 1, Mode.elements, cs =>
    match skip fuel Mode.value cs with
    | none => none
    | some r =>
      match skipSpace r with
      | [] => none
      | d :: r1 =>
        if d = ',' then skip fuel Mode.elements (skipSpace r1)
        else if d = ']' then some r1
        else none

/-- What a member's value is to a string field: a string, `null` (leaves the field
as it is) or anything else (a type error). -/
inductive ValKind where
  | str (s : String)
  | null
  | other
deriving DecidableEq, Repr

/-- Reads one value and classifies it. -/
def parseValue (fuel : Nat) (cs : List Char) : Option (ValKind × List Char) :=
  match cs with
  | [] => none
  | c :: rest =>
    if c = '"' then
      match parseString rest with
      | some (s, r) => some (ValKind.str s, r)
      | none => none
    else if c = 'n' then
      match expectLit ['u', 'l', 'l'] rest with
      | some r => some (ValKind.null, r)
      | none => none
    else
      match skip fuel Mode.value (c :: rest) with
      | some r => some (ValKind.other, r)
      | none => none

/-- One character of a field name against one character of a key, as the decoder
folds them: equal up to ASCII case, and the long s (code point 383) folds to `s`,
the Kelvin sign (8490) to `k`. -/
def foldCharEq (n k : Char) : Bool :=
  if k.toNat < 128 then n.toUpper = k.toUpper
  else ((n = 's' ∨ n = 'S') ∧ k.toNat = 383) ∨ ((n = 'k' ∨ n = 'K') ∧ k.toNat = 8490)

/-- Whether an object key selects the field called `name`: exact or folded match. -/
def equalFold : List Char → List Char → Bool
  | [], [] => true
  | n :: ns, k :: ks => foldCharEq n k && equalFold ns ks
  | _, _ => false

/-- The struct's fields, by declaration order. -/
inductive Field where
  | asnId
  | eventTime
  | siteId
  | itemGtin
  | itemId
deriving DecidableEq, Repr

/-- The field an object key selects, if any. -/
def fieldOf (key : String) : Option Field :=
  if equalFold "asnId".data key.data then some Field.asnId
  else if equalFold "eventTime".data key.data then some Field.eventTime
  else if equalFold "siteId".data key.data then some Field.siteId
  else if equalFold "itemGtin".data key.data then some Field.itemGtin
  else if equalFold "itemId".data key.data then some Field.itemId
  else none

/-- Stores a string into a field. -/
def setField (a : ASNContext) (f : Field) (v : String) : ASNContext :=
  match f with
  | Field.asnId => { a with ASNID := v }
  | Field.eventTime => { a with EventTime := v }
  | Field.siteId => { a with SiteID := v }
  | Field.itemGtin => { a with ItemGTIN := v }
  | Field.itemId => { a with ItemID := v }

/-- The decoder's state while it walks an object: the struct so far and whether a
type error has been saved. -/
structure DecodeState where
  ctx : ASNContext
  typeError : Bool
deriving DecidableEq, Repr

/-- Applies one `key: value` member: an unknown key is ignored, a known key takes
a string, keeps its value on `null`, and saves a type error on anything else. -/
def applyMember (st : DecodeState) (key : String) (v : ValKind) : DecodeState :=
  match fieldOf key with
  | none => st
  | some f =>
    match v with
    | ValKind.str s => { st with ctx := setField st.ctx f s }
    | ValKind.null => st
    | ValKind.other => { st with typeError := true }

/-- Decodes the members of a non-empty object, the input standing at the first key. -/
def decodeMembers : Nat → List Char → DecodeState → Option (DecodeState × List Char)
  | 0, _, _ => none
  | fuel + 1, cs, st =>
    match cs with
    | [] => none
    | c :: rest =>
      if c = '"' then
        match parseString rest with
        | none => none
        | some (key, r) =>
          match skipSpace r with
          | [] => none
          | colon :: r1 =>
            if colon = ':' then
              match parseValue fuel (skipSpace r1) with
              | none => none
              | some (v, r2) =>
                match skipSpace r2 with
                | [] => none
                | d :: r3 =>
                  if d = ',' then decodeMembers fuel (skipSpace r3) (applyMember st key v)
                  else if d = '}' then some (applyMember st key v, r3)
                  else none
            else none
      else none

/-- The result of `json.Unmarshal(data, &asn)` on a zero `ASNContext`: `none` when
Unmarshal returns an error (a syntax error, or a type error: a top-level value that
is neither an object nor `null`, or a known field given a non-string, non-null
value), otherwise the decoded struct. -/
def unmarshalASNContext (data : String) : Option ASNContext :=
  let cs := skipSpace data.data
  let fuel := 2 * cs.length + 2
  match cs with
  | [] => none
  | c :: rest =>
    if c = '{' then
      match skipSpace rest with
      | [] => none
      | d :: r =>
        if d = '}' then
          if skipSpace r = [] then some ASNContext.zero else none
        else
          match decodeMembers fuel (d :: r) ⟨ASNContext.zero, false⟩ with
          | none => none
          | some (st, r1) =>
            if skipSpace r1 = [] ∧ st.typeError = false then some st.ctx else none
    else
      match parseValue fuel (c :: rest) with
      | some (ValKind.null, r) => if skipSpace r = [] then some ASNContext.zero else none
      | _ => none

/-- The unit the scanner reads back from what `escapeChar` wrote for `c`: a `u`
escape for the characters written that way, the character itself otherwise. -/
def encUnit (c : Char) : StrUnit :=
  if c = '"' ∨ c = '\\' ∨ c = '\n' ∨ c = '\r' ∨ c = '\t' then StrUnit.lit c
  else if c.toNat < 32 ∨ c = '<' ∨ c = '>' ∨ c = '&' ∨ c.toNat = 8232 ∨ c.toNat = 8233 then
    StrUnit.esc c.toNat
  else StrUnit.lit c

end Json

/-! ## Tag classification (`app/tag/model.go`) -/

/-- IsEmpty determines if a tag is empty: `reflect.DeepEqual(tag, Tag{})`.  Every
string is empty, every integer zero, the location history is the nil slice (an
empty non-nil slice is not deeply equal to nil), the confidence compares equal to
zero and the cycle-count flag is off. -/
def Tag.IsEmpty (tag : Tag) : Bool :=
  tag.URI == "" && tag.Epc == "" && tag.ProductID == "" && tag.FilterValue == 0 &&
  tag.Tid == "" && tag.EpcEncodeFormat == "" && tag.FacilityID == "" && tag.Event == "" &&
  tag.Arrived == 0 && tag.LastRead == 0 && tag.Source == "" &&
  tag.LocationHistory == none && tag.EpcState == "" && tag.QualifiedState == "" &&
  tag.EpcContext == "" && tag.Confidence.isZero && tag.CycleCount == false

/-- IsShippingNoticeEntry determines if a tag in the DB was the result of an Advance
Shipping Notice: it determines that a tag only exists because of a shipping notice. -/
def Tag.IsShippingNoticeEntry (cfg : AppConfig) (tag : Tag) : Bool :=
  if tag.EpcContext = "" ∨
      tag.FilterValue ≠ 0 ∨
      tag.Tid ≠ "" ∨
      tag.EpcEncodeFormat ≠ "" ∨
      tag.FacilityID ≠ cfg.AdvancedShippingNoticeFacilityID ∨
      tag.Event ≠ "" ∨
      tag.Arrived ≠ 0 ∨
      tag.LastRead ≠ 0 ∨
      tag.Source ≠ "" ∨
      (sliceElems tag.LocationHistory).length ≠ 0 ∨
      tag.EpcState ≠ "" ∨
      tag.QualifiedState ≠ "" then
    false
  else
    match Json.unmarshalASNContext tag.EpcContext with
    | none => false
    | some asn =>
      asn.ASNID != "" && asn.EventTime != "" &&
        asn.SiteID != "" && asn.ItemGTIN != "" && asn.ItemID != ""

/-- IsTagReadByRspController returns true if a tag was read by the RSP Controller,
versus a result of ASN. -/
def Tag.IsTagReadByRspController (cfg : AppConfig) (tag : Tag) : Bool :=
  !tag.IsEmpty && !tag.IsShippingNoticeEntry cfg

/-! ## `processShippingNotice` (`main.go`) -/

/-- The functions `processShippingNotice` calls in other packages, over a database
handle whose state has type `σ`.  `FindByEpc` reads the store and can fail;
`Replace` returns the store it leaves behind together with its error;
`DecodeTagData` returns the product id and the URI (its error is discarded by the
caller). -/
structure Env (σ : Type) where
  ProcessIncomingASNList : σ → List AdvanceShippingNotice → σ
  DecodeTagData : String → String × String
  IsTagWhitelisted : String → List String → Bool
  FindByEpc : σ → String → Except String Tag
  Replace : σ → List Tag → σ × Option String

/-- The variables of the loops: the tags queued for `Replace` (`tagData`) and, as a
record of the calls made, the EPCs passed to `FindByEpc` so far, oldest first. -/
structure Acc where
  tagData : List Tag
  lookups : List String
deriving DecidableEq, Repr

/-- What `processShippingNotice` leaves behind: the store, the loop variables at
the point of return, and the returned error (`none` is `nil`). -/
structure Outcome (σ : Type) where
  db : σ
  acc : Acc
  err : Option String

/-- The `ASNContext` built for one EPC of `asnItem` in `asn`. -/
def asnContextOf (asn : AdvanceShippingNotice) (asnItem : ASNInputItem) : ASNContext :=
  { ASNID := asn.ID, EventTime := asn.EventTime, SiteID := asn.SiteID,
    ItemGTIN := asnItem.ItemGTIN, ItemID := asnItem.ItemID }

/-- The temporary tag created for an EPC: `Tag{}` with `Epc`, `ProductID` and `URI` set. -/
def tempTagOf {σ : Type} (env : Env σ) (asnEpc : String) : Tag :=
  { Tag.zero with
    Epc := asnEpc, ProductID := (env.DecodeTagData asnEpc).1, URI := (env.DecodeTagData asnEpc).2 }

/-- The body of the innermost loop, for one EPC of one item: the whitelist check,
the lookup, and the queueing of the new or the updated tag.  A failed lookup is
logged at debug level and queues nothing. -/
def processEpc {σ : Type} (cfg : AppConfig) (env : Env σ) (db : σ)
    (asn : AdvanceShippingNotice) (asnItem : ASNInputItem) (acc : Acc) (asnEpc : String) : Acc :=
  let tempTag := tempTagOf env asnEpc
  if cfg.EpcFilters.length > 0 ∧ env.IsTagWhitelisted tempTag.Epc cfg.EpcFilters = false then
    acc
  else
    let asnContextBytes := Json.marshalASNContext (asnContextOf asn asnItem)
    match env.FindByEpc db tempTag.Epc with
    | Except.error _ => { acc with lookups := acc.lookups ++ [tempTag.Epc] }
    | Except.ok tagFromDB =>
      if tagFromDB.IsEmpty then
        { tagData := acc.tagData ++
            [{ tempTag with
               FacilityID := cfg.AdvancedShippingNoticeFacilityID,
               EpcContext := asnContextBytes }],
          lookups := acc.lookups ++ [tempTag.Epc] }
      else
        { tagData := acc.tagData ++ [{ tagFromDB with EpcContext := asnContextBytes }],
          lookups := acc.lookups ++ [tempTag.Epc] }

/-- The loop over the EPCs of one item. -/
def processItem {σ : Type} (cfg : AppConfig) (env : Env σ) (db : σ)
    (asn : AdvanceShippingNotice) (acc : Acc) (asnItem : ASNInputItem) : Acc :=
  (sliceElems asnItem.EPCs).foldl (processEpc cfg env db asn asnItem) acc

/-- The loop over the items of one ASN. -/
def processItems {σ : Type} (cfg : AppConfig) (env : Env σ) (db : σ)
    (asn : AdvanceShippingNotice) (acc : Acc) : Acc :=
  (sliceElems asn.Items).foldl (processItem cfg env db asn) acc

/-- The check made on each ASN before its items are read. -/
def asnMissingData (asn : AdvanceShippingNotice) : Bool :=
  asn.ID = "" ∨ asn.EventTime = "" ∨ asn.SiteID = "" ∨ asn.Items = none

/-- The loop over the decoded ASNs.  `tagData` is never reset, so each `Replace`
receives the tags queued for all the ASNs read so far. -/
def processASNs {σ : Type} (cfg : AppConfig) (env : Env σ) :
    List AdvanceShippingNotice → σ → Acc → Outcome σ
  | [], db, acc => { db := db, acc := acc, err := none }
  | asn :: rest, db, acc =>
    if asnMissingData asn then
      { db := db, acc := acc, err := some "ASN is missing data" }
    else
      let acc1 := processItems cfg env db asn acc
      if acc1.tagData.length > 0 then
        match env.Replace db acc1.tagData with
        | (db1, some e) => { db := db1, acc := acc1, err := some ("error replacing tags: " ++ e) }
        | (db1, none) => processASNs cfg env rest db1 acc1
      else processASNs cfg env rest db acc1

/-- The model of `processShippingNotice`.  `decoded` is the outcome of decoding the
payload into `[]tag.AdvanceShippingNotice`; the gauge update touches only metrics
and is left out. -/
def processShippingNotice {σ : Type} (cfg : AppConfig) (env : Env σ)
    (decoded : Except String (List AdvanceShippingNotice)) (db : σ) : Outcome σ :=
  match decoded with
  | Except.error e =>
    { db := db, acc := { tagData := [], lookups := [] }, err := some ("unable to Decode data: " ++ e) }
  | Except.ok incomingDataSlice =>
    processASNs cfg env incomingDataSlice (env.ProcessIncomingASNList db incomingDataSlice)
      { tagData := [], lookups := [] }

/-! ## A store as a table keyed by EPC -/

/-- Modelled from the spec: the persistence port (`FindByEpc`, `Replace` of
`app/tag/controller.go`, not in the sources at hand).  The store is a table of tags
keyed by `Epc`; section 4.H gives `FindByEpc(epc) → Tag | empty`. -/
def MapStore.FindByEpc (s : List Tag) (epc : String) : Tag :=
  match s.find? (fun t => t.Epc == epc) with
  | some t => t
  | none => Tag.zero

/-- Modelled from the spec: upsert of one tag by EPC, the row of the same EPC being
replaced in place and a new EPC appended. -/
def MapStore.upsert (t : Tag) : List Tag → List Tag
  | [] => [t]
  | x :: xs => if x.Epc = t.Epc then t :: xs else x :: MapStore.upsert t xs

/-- Modelled from the spec: `Replace(tags[])` of section 4.H, upsert-by-EPC of the
tags in order. -/
def MapStore.Replace (s : List Tag) (tags : List Tag) : List Tag :=
  tags.foldl (fun acc t => MapStore.upsert t acc) s

/-- The environment over the table store: lookups and `Replace` never fail, and
`ProcessIncomingASNList` leaves the tags alone. -/
def MapStore.env (decodeTagData : String → String × String)
    (isTagWhitelisted : String → List String → Bool) : Env (List Tag) :=
  { ProcessIncomingASNList := fun s _ => s,
    DecodeTagData := decodeTagData,
    IsTagWhitelisted := isTagWhitelisted,
    FindByEpc := fun s epc => Except.ok (MapStore.FindByEpc s epc),
    Replace := fun s tags => (MapStore.Replace s tags, none) }

/-! ## Auxiliary definitions for the statements -/

/-- The key and the context of a queued tag. -/
def tagKey (t : Tag) : String × String := (t.Epc, t.EpcContext)

/-- The context stored under `epc` once the pairs `kv` have been written in order
over a row whose context was `c0`: the context of the last pair for `epc`, if any. -/
def ctxAfter (epc : String) (kv : List (String × String)) (c0 : String) : String :=
  kv.foldl (fun c p => if p.1 = epc then p.2 else c) c0

/-- Whether the whitelist check lets an EPC through. -/
def passesFilter (cfg : AppConfig) (wl : String → List String → Bool) (epc : String) : Bool :=
  !(decide (cfg.EpcFilters.length > 0) && !wl epc cfg.EpcFilters)

/-- The EPCs of one item that are looked up, each with the context it receives. -/
def occsItem (cfg : AppConfig) (wl : String → List String → Bool)
    (asn : AdvanceShippingNotice) (item : ASNInputItem) : List (String × String) :=
  ((sliceElems item.EPCs).filter (passesFilter cfg wl)).map
    (fun e => (e, Json.marshalASNContext (asnContextOf asn item)))

/-- The same for all the items of one ASN. -/
def occsASN (cfg : AppConfig) (wl : String → List String → Bool)
    (asn : AdvanceShippingNotice) : List (String × String) :=
  (sliceElems asn.Items).flatMap (occsItem cfg wl asn)

/-- The same for a list of ASNs. -/
def occs (cfg : AppConfig) (wl : String → List String → Bool)
    (asns : List AdvanceShippingNotice) : List (String × String) :=
  asns.flatMap (occsASN cfg wl)

/-! ## Example data -/

/-- An environment whose every lookup fails while `Replace` succeeds. -/
def failingLookupEnv : Env Unit :=
  { ProcessIncomingASNList := fun s _ => s,
    DecodeTagData := fun _ => ("", ""),
    IsTagWhitelisted := fun _ _ => true,
    FindByEpc := fun _ _ => Except.error "connection refused",
    Replace := fun s _ => (s, none) }

/-- An environment over the table store whose `Replace` always fails. -/
def failingReplaceEnv : Env (List Tag) :=
  { ProcessIncomingASNList := fun s _ => s,
    DecodeTagData := fun _ => ("", ""),
    IsTagWhitelisted := fun _ _ => true,
    FindByEpc := fun s epc => Except.ok (MapStore.FindByEpc s epc),
    Replace := fun s _ => (s, some "connection refused") }

/-- A configuration without EPC filters. -/
def exampleConfig : AppConfig :=
  { AdvancedShippingNoticeFacilityID := "UNDEFINED_FACILITY", EpcFilters := [] }

/-- A configuration with one EPC filter. -/
def filteringConfig : AppConfig :=
  { AdvancedShippingNoticeFacilityID := "UNDEFINED_FACILITY", EpcFilters := ["30"] }

/-- The table store with a decoder that finds nothing and a whitelist that accepts
the EPCs starting with one of the filters. -/
def exampleEnv : Env (List Tag) :=
  MapStore.env (fun _ => ("", "")) (fun epc filters => filters.any (fun f => epc.data.take f.data.length == f.data))

/-- An item with one EPC. -/
def exampleItem : ASNInputItem :=
  { EPCs := some ["E9"], ItemGTIN := "00012345678905", ItemID := "item-1" }

/-- A complete shipping notice. -/
def exampleASN : AdvanceShippingNotice :=
  { ID := "A1", EventTime := "2019-03-01T10:00:00Z", SiteID := "site-7",
    Items := some [exampleItem] }

/-- A tag as a sensor read leaves it in the store. -/
def sensorTag : Tag :=
  { Tag.zero with Epc := "E9", Source := "fixed", Event := "arrived" }

/-- A shipping notice that passes the check although its item has no GTIN. -/
def noGtinASN : AdvanceShippingNotice :=
  { ID := "A1", EventTime := "2019-03-01T10:00:00Z", SiteID := "site-7",
    Items := some [{ EPCs := some ["E9"], ItemGTIN := "", ItemID := "item-1" }] }

/-! ## Tag equality (`app/tag/model.go`) -/

/-- IsEqual compares 2 tag structures.  `reflect.DeepEqual` on the two location
histories is equality of the slices with nil and empty kept apart. -/
def Tag.IsEqual (tag target : Tag) : Bool :=
  if tag.URI = target.URI ∧
      tag.Epc = target.Epc ∧
      tag.EpcEncodeFormat = target.EpcEncodeFormat ∧
      tag.Event = target.Event ∧
      tag.FacilityID = target.FacilityID ∧
      tag.Tid = target.Tid ∧
      tag.Arrived = target.Arrived ∧
      tag.LastRead = target.LastRead ∧
      tag.Source = target.Source ∧
      tag.LocationHistory = target.LocationHistory ∧
      tag.QualifiedState = target.QualifiedState ∧
      tag.EpcState = target.EpcState ∧
      tag.EpcContext = target.EpcContext ∧
      tag.ProductID = target.ProductID then
    true
  else false

/-! ## Scheduler run state (`pkg/jsonrpc/schedulerRunState.go`) -/

/-- The parameters of a scheduler run-state notification. -/
structure SchedulerRunStateParams where
  RunState : String
deriving DecidableEq, Repr

/-- A scheduler run-state notification.  The embedded `Notification` is declared
in another file of the package; its type is the parameter `N`. -/
structure SchedulerRunState (N : Type) where
  Notification : N
  Params : SchedulerRunStateParams

/-- Validate rejects a missing run state and otherwise returns what the embedded
notification's `Validate`, passed as `validateNotification`, returns. -/
def SchedulerRunState.Validate {N : Type} (validateNotification : N → Option String)
    (notif : SchedulerRunState N) : Option String :=
  if notif.Params.RunState = "" then
    some "missing run_state parameter"
  else
    validateNotification notif.Notification

/-- Two tags that differ in `FilterValue` only. -/
def pallet : Tag :=
  { Tag.zero with Epc := "E9", FilterValue := 1 }

/-- The same tag with another filter value. -/
def carton : Tag :=
  { Tag.zero with Epc := "E9", FilterValue := 2 }


/-! ## 64-bit floating point (`float64`) -/

/-- Rounds a rational to the nearest integer, a tie to the even one. -/
def roundHalfEven (x : ℚ) : Int :=
  if x - ⌊x⌋ < 1 / 2 then ⌊x⌋
  else if 1 / 2 < x - ⌊x⌋ then ⌊x⌋ + 1
  else if ⌊x⌋ % 2 = 0 then ⌊x⌋ else ⌊x⌋ + 1

/-- A Go `float64`, that is an IEEE 754 binary64 value: a finite value, given as the
rational number it stands for, an infinity, or a NaN.  The sign of a zero is not kept;
`==` does not see it. -/
inductive F64 where
  | fin (q : ℚ)
  | inf (negative : Bool)
  | nan
deriving DecidableEq, Repr

/-- The exponent of the unit in the last place at `q ≠ 0`: 52 below the exponent of the
binade of `q`, and not below that of the subnormal numbers. -/
def F64.ulpExp (q : ℚ) : Int :=
  max (Int.log 2 |q|) (-1022) - 52

/-- The `float64` nearest to the rational `q`, a tie going to the even significand;
a result of magnitude `2^1024` or more is an infinity. -/
def F64.round (q : ℚ) : F64 :=
  if q = 0 then F64.fin 0
  else if 2 ^ 1024 ≤ |(roundHalfEven (q / 2 ^ F64.ulpExp q) : ℚ) * 2 ^ F64.ulpExp q| then
    F64.inf (decide (q < 0))
  else F64.fin ((roundHalfEven (q / 2 ^ F64.ulpExp q) : ℚ) * 2 ^ F64.ulpExp q)

/-- The sum `a + b` of two `float64`. -/
def F64.add : F64 → F64 → F64
  | F64.nan, _ => F64.nan
  | _, F64.nan => F64.nan
  | F64.inf a, F64.inf b => if a = b then F64.inf a else F64.nan
  | F64.inf a, F64.fin _ => F64.inf a
  | F64.fin _, F64.inf b => F64.inf b
  | F64.fin a, F64.fin b => F64.round (a + b)

/-- The quotient `a / b` of two `float64`; a zero divisor is taken as `+0`. -/
def F64.div : F64 → F64 → F64
  | F64.nan, _ => F64.nan
  | _, F64.nan => F64.nan
  | F64.inf _, F64.inf _ => F64.nan
  | F64.inf a, F64.fin b => F64.inf (a != decide (b < 0))
  | F64.fin _, F64.inf _ => F64.fin 0
  | F64.fin a, F64.fin b =>
    if b = 0 then (if a = 0 then F64.nan else F64.inf (decide (a < 0)))
    else F64.round (a / b)

/-- The conversion `float64(z)` of an integer. -/
def F64.ofInt (z : Int) : F64 :=
  F64.round (z : ℚ)

/-- The rational a finite `float64` stands for, and 0 for the others. -/
def F64.toRat : F64 → ℚ
  | F64.fin q => q
  | _ => 0

/-! ## RSSI window (`app/tagprocessor`, sections 3 and 4.A of the specification) -/

/-- Modelled from the spec: the `CircularBuffer` of `app/tagprocessor`, of which only
the tests are at hand.  Sections 3 and 4.A describe a fixed-capacity ring buffer of
float samples that never grows past its window size.  `values` are the slots,
`counter` counts the samples added so far. -/
structure CircularBuffer where
  windowSize : Nat
  values : List F64
  counter : Nat
deriving DecidableEq, Repr

/-- Modelled from the spec: `NewCircularBuffer(windowSize)`, an empty buffer whose
slots are all allocated at construction. -/
def NewCircularBuffer (windowSize : Nat) : CircularBuffer :=
  { windowSize := windowSize, values := List.replicate windowSize (F64.fin 0), counter := 0 }

/-- Modelled from the spec: `add(v)`; the sample goes to the next slot of the ring,
so that on overflow it takes the place of the oldest one. -/
def CircularBuffer.addValue (buff : CircularBuffer) (value : F64) : CircularBuffer :=
  { buff with
    values := buff.values.set (buff.counter % buff.windowSize) value,
    counter := buff.counter + 1 }

/-- Modelled from the spec: `count()`, the number of filled slots. -/
def CircularBuffer.getN (buff : CircularBuffer) : Nat :=
  min buff.counter buff.windowSize

/-- Modelled from the spec: `mean()`, the mean of the filled slots, 0 when empty.  The
filled slots are added up from the first one and the total is divided by their number,
both in `float64` arithmetic. -/
def CircularBuffer.getMean (buff : CircularBuffer) : F64 :=
  if buff.getN = 0 then F64.fin 0
  else
    F64.div ((buff.values.take buff.getN).foldl F64.add (F64.fin 0))
      (F64.ofInt (buff.getN : Int))

/-- Adds the samples of a sequence in order. -/
def CircularBuffer.addAll (buff : CircularBuffer) (samples : List F64) : CircularBuffer :=
  samples.foldl CircularBuffer.addValue buff

/-- The arithmetic mean of a list of samples. -/
def arithmeticMean (l : List ℚ) : ℚ :=
  l.sum / (l.length : ℚ)

/-- The last `n` samples of a sequence. -/
def lastSamples (n : Nat) (S : List ℚ) : List ℚ :=
  S.drop (S.length - n)

/-! ## Sensors (`app/tagprocessor`, sections 3 and 4.B of the specification) -/

/-- Modelled from the spec: the sensor personalities of section 4.B, under the names
the tests use. -/
inductive Personality where
  | NoPersonality
  | Exit
  | POS
deriving DecidableEq, Repr

/-- Modelled from the spec: the sensor record of `app/tagprocessor` (section 3):
device id, facility, personality and the minimum-RSSI floor in dBm times ten.  A
sensor that no configuration notification has reached yet has no floor. -/
structure RfidSensor where
  DeviceId : String
  FacilityId : String
  Personality : Personality
  minRssiDbm10X : Option Int
deriving DecidableEq, Repr

/-- Modelled from the spec: `NewRfidSensor(deviceId)`, the sensor the registry creates
on the first observation of a device, with the default personality. -/
def NewRfidSensor (deviceId : String) : RfidSensor :=
  { DeviceId := deviceId, FacilityId := "", Personality := Personality.NoPersonality,
    minRssiDbm10X := none }

/-- The decimal rendering of an integer, with a minus sign when negative. -/
def itoa (n : Int) : String :=
  if n < 0 then "-" ++ Nat.repr n.natAbs else Nat.repr n.toNat

/-- Modelled from the spec: `getAntennaAlias(antennaId)`, the concatenation
`device_id-antenna_id` of section 3. -/
def RfidSensor.getAntennaAlias (sensor : RfidSensor) (antennaId : Int) : String :=
  sensor.DeviceId ++ "-" ++ itoa antennaId

/-- Modelled from the spec: the floor filter of section 4.D, a read is dropped when
its RSSI is below the sensor's floor. -/
def RfidSensor.belowFloor (sensor : RfidSensor) (rssi : Int) : Bool :=
  match sensor.minRssiDbm10X with
  | none => false
  | some floor => rssi < floor

/-! ## Processing a read (`app/tagprocessor`, section 4.D of the specification) -/

/-- Modelled from the spec: the states of the tag state machine of section 4.D. -/
inductive TagState where
  | Unknown
  | Present
  | Exiting
  | Departed
  | DepartedExit
deriving DecidableEq, Repr

/-- Modelled from the spec: the event types of section 3. -/
inductive EventType where
  | arrived
  | moved
  | departed
  | returned
  | cycle_count
deriving DecidableEq, Repr

/-- Modelled from the spec: the `TagEvent` of section 3. -/
structure TagEvent where
  epc : String
  timestamp : Int
  facility_id : String
  location : String
  event_type : EventType
  tid : String
deriving DecidableEq, Repr

/-- Modelled from the spec: one raw tag read of an `inventory_data` message
(section 6), as the ingest task forwards it once validated. -/
structure TagRead where
  epc : String
  tid : String
  antenna_id : Int
  rssi : Int
  last_read_on : Int
deriving DecidableEq, Repr

/-- Modelled from the spec: the parameters of section 4.D. -/
structure EngineParams where
  W : Nat
  K : Nat
  M : Int
  T_exit : Int
  T_present : Int
deriving DecidableEq, Repr

/-- Modelled from the spec: the `TagRef` of section 3, the working record of an
active EPC. -/
structure TagRef where
  Location : String
  FacilityID : String
  state : TagState
  lastStateChange : Int
  windows : List (String × CircularBuffer)
  exitDeadline : Option Int
  ageOutDeadline : Option Int
deriving DecidableEq, Repr

/-- The table of `TagRef`s, by EPC. -/
abbrev TagRefs := String → Option TagRef

/-- Modelled from the spec: the state of an EPC; `Unknown` is the state of a
never-seen EPC, one without a `TagRef`. -/
def stateOf (refs : TagRefs) (epc : String) : TagState :=
  match refs epc with
  | none => TagState.Unknown
  | some ref => ref.state

/-- Stores a `TagRef` under an EPC. -/
def setRef (refs : TagRefs) (epc : String) (ref : TagRef) : TagRefs :=
  fun e => if e = epc then some ref else refs e

/-- Modelled from the spec: the `TagRef` created by the first accepted read of an
EPC (row `Unknown → Present`): located at the antenna alias of the read, in the
sensor's facility, with one RSSI window holding the sample. -/
def newTagRef (p : EngineParams) (sensor : RfidSensor) (read : TagRead) : TagRef :=
  { Location := sensor.getAntennaAlias read.antenna_id,
    FacilityID := sensor.FacilityId,
    state := TagState.Present,
    lastStateChange := read.last_read_on,
    windows := [(sensor.getAntennaAlias read.antenna_id,
      (NewCircularBuffer p.W).addValue (F64.ofInt read.rssi))],
    exitDeadline := none,
    ageOutDeadline := some (read.last_read_on + p.T_present) }

/-- Modelled from the spec: the `arrived` event of a first read. -/
def arrivedEvent (sensor : RfidSensor) (read : TagRead) : TagEvent :=
  { epc := read.epc, timestamp := read.last_read_on, facility_id := sensor.FacilityId,
    location := sensor.getAntennaAlias read.antenna_id, event_type := EventType.arrived,
    tid := read.tid }

/-- Modelled from the spec: the `Read` trigger of section 4.D (`app/tagprocessor`, of
which only the tests are at hand).  A read first passes the filters: it is dropped
when its RSSI is below the sensor's floor, and dropped entirely when the sensor is a
POS and the tag is `Unknown`.  An accepted read of an `Unknown` tag makes it `Present`
and emits `arrived`.  The rows of the table for a tag that is already known are the
argument `readKnown`. -/
def processRead (p : EngineParams)
    (readKnown : TagRef → RfidSensor → TagRead → TagRef × List TagEvent)
    (refs : TagRefs) (sensor : RfidSensor) (read : TagRead) : TagRefs × List TagEvent :=
  if sensor.belowFloor read.rssi then (refs, [])
  else if stateOf refs read.epc = TagState.Unknown then
    if sensor.Personality = Personality.POS then (refs, [])
    else (setRef refs read.epc (newTagRef p sensor read), [arrivedEvent sensor read])
  else
    match refs read.epc with
    | none => (refs, [])
    | some ref =>
      (setRef refs read.epc (readKnown ref sensor read).1, (readKnown ref sensor read).2)

/-- Processes the reads of one sensor in order, collecting the events. -/
def processReads (p : EngineParams)
    (readKnown : TagRef → RfidSensor → TagRead → TagRef × List TagEvent)
    (refs : TagRefs) (sensor : RfidSensor) : List TagRead → TagRefs × List TagEvent
  | [] => (refs, [])
  | read :: rest =>
    ((processReads p readKnown (processRead p readKnown refs sensor read).1 sensor rest).1,
      (processRead p readKnown refs sensor read).2 ++
        (processReads p readKnown (processRead p readKnown refs sensor read).1 sensor rest).2)

/-- A notification whose run state is missing. -/
def stoppedNotification : SchedulerRunState Unit :=
  { Notification := (), Params := { RunState := "" } }

/-- The defaults of the end-to-end scenarios: window 20, two exit reads, no margin. -/
def exampleParams : EngineParams :=
  { W := 20, K := 2, M := 0, T_exit := 30000, T_present := 3600000 }

/-- A handler of the reads of known tags that leaves the `TagRef` as it is. -/
def keepRef (ref : TagRef) (_sensor : RfidSensor) (_read : TagRead) : TagRef × List TagEvent :=
  (ref, [])

/-- A back-stock sensor with a floor of -600. -/
def backSensor : RfidSensor :=
  { DeviceId := "RSP-150000", FacilityId := "backStock",
    Personality := Personality.NoPersonality, minRssiDbm10X := some (-600) }

/-- A point-of-sale sensor. -/
def posSensor : RfidSensor :=
  { DeviceId := "RSP-999999", FacilityId := "salesFloor", Personality := Personality.POS,
    minRssiDbm10X := none }

/-- A read of `E2` at -580. -/
def goodRead : TagRead :=
  { epc := "E2", tid := "", antenna_id := 0, rssi := -580, last_read_on := 1000 }

/-- A read of `E3` at -620. -/
def weakRead : TagRead :=
  { epc := "E3", tid := "", antenna_id := 0, rssi := -620, last_read_on := 1000 }

/-- The table without any `TagRef`. -/
def noRefs : TagRefs := fun _ => none

/-! ## Examples for the shipping-notice loop and the classification -/

/-- A shipping notice without site id, for other EPCs. -/
def noSiteASN : AdvanceShippingNotice :=
  { ID := "A2", EventTime := "2019-03-02T10:00:00Z", SiteID := "",
    Items := some [{ EPCs := some ["E10"], ItemGTIN := "00012345678905", ItemID := "item-2" }] }

/-- A complete shipping notice for yet another EPC. -/
def otherASN : AdvanceShippingNotice :=
  { ID := "A3", EventTime := "2019-03-03T10:00:00Z", SiteID := "site-7",
    Items := some [{ EPCs := some ["E11"], ItemGTIN := "00012345678905", ItemID := "item-3" }] }

/-- The sensor-read tag under another EPC, URI and product id, with a confidence and
the cycle-count flag set. -/
def relabelledTag : Tag :=
  { sensorTag with
    Epc := "E1"
    URI := "urn:epc:id:sgtin:0614141.107346.2017"
    ProductID := "00614141073467"
    Confidence := ⟨4607182418800017408⟩
    CycleCount := true }

/-- A notification with the run state `PAUSED`. -/
def pausedNotification : SchedulerRunState Unit :=
  { Notification := (), Params := { RunState := "PAUSED" } }

/-! ## Machine integers and scheduled tasks (`main.go`) -/

/-- The value a 64-bit signed integer takes for the mathematical result `x`:
two's-complement wrap-around into `[-2^63, 2^63)`. -/
def wrapInt64 (x : Int) : Int :=
  (x + 9223372036854775808) % 18446744073709551616 - 9223372036854775808

/-- `time.Millisecond`, in nanoseconds. -/
def timeMillisecond : Int := 1000000

/-- `time.Hour`, in nanoseconds. -/
def timeHour : Int := 3600000000000

/-- The period of `aggregateDepartedTicker` in `processScheduledTasks`, in nanoseconds:
`time.Duration(AggregateDepartedThresholdMillis/5) * time.Millisecond`.  The
configuration field is declared outside the sources at hand; it is taken as a Go
`int` of 64 bits.  Go's `/` truncates toward zero and a `Duration` is an `int64`. -/
def aggregateDepartedPeriod (aggregateDepartedThresholdMillis : Int) : Int :=
  wrapInt64 (wrapInt64 (Int.tdiv aggregateDepartedThresholdMillis 5) * timeMillisecond)

/-- The period of `ageoutTicker` in `processScheduledTasks`, in nanoseconds:
`1 * time.Hour`. -/
def ageoutPeriod : Int :=
  wrapInt64 (1 * timeHour)

/-! ## `markDepartedIfUnseen` (`main.go`) -/

namespace jsonrpc

/-- Modelled from the spec: `jsonrpc.TagEvent`, declared outside the sources at hand;
the fields are those of the `TagEvent` of section 3, the event type being the string
the code compares. -/
structure TagEvent where
  Epc : String
  Tid : String
  Timestamp : Int
  FacilityID : String
  Location : String
  EventType : String
deriving DecidableEq, Repr

end jsonrpc

/-- A Go `map[string]int`: the minutes under a key, if the key is present. -/
abbrev AgeOuts := String → Option Int

/-- POC only implementation.  The event and the map are returned as the call leaves
them.  `minutes*60*1000` is computed in `int`, converted to `int64` and added to the
timestamp, each step with wrap-around. -/
def markDepartedIfUnseen (tag : jsonrpc.TagEvent) (ageOuts : AgeOuts)
    (currentTimeMillis : Int) : jsonrpc.TagEvent × AgeOuts :=
  if tag.EventType = "cycle_count" then
    match ageOuts tag.FacilityID with
    | some minutes =>
      if wrapInt64 (tag.Timestamp + wrapInt64 (wrapInt64 (minutes * 60) * 1000))
          ≤ currentTimeMillis then
        ({ tag with EventType := "departed" }, ageOuts)
      else (tag, ageOuts)
    | none => (tag, ageOuts)
  else (tag, ageOuts)

/-- Whether `x` is the value of an `int64`. -/
def inInt64 (x : Int) : Prop :=
  -9223372036854775808 ≤ x ∧ x < 9223372036854775808

/-- A cycle-count event of the sales floor. -/
def cycleCountEvent : jsonrpc.TagEvent :=
  { Epc := "E9", Tid := "", Timestamp := 1000000, FacilityID := "salesFloor",
    Location := "RSP-150000-0", EventType := "cycle_count" }

/-- An age-out of ten minutes for the sales floor. -/
def exampleAgeOuts : AgeOuts :=
  fun facility => if facility = "salesFloor" then some 10 else none

/-! ## `processEvents` (`main.go`) -/

/-- A reading of an event of the message bus: its name and its value. -/
structure Reading where
  Name : String
  Value : String
deriving DecidableEq, Repr

/-- An event of the message bus, with its readings. -/
structure Event where
  Readings : List Reading
deriving DecidableEq, Repr

/-- One of the variadic `params` of a pipeline function: an `Event` or a value of
another type. -/
inductive Param where
  | event (e : Event)
  | other
deriving DecidableEq, Repr

/-- The goroutines `processEvents` starts with a `go` statement; what they do runs
beside the loop and is not part of the model. -/
inductive Goroutine where
  | deleteTagCollection
  | queryBasicInfoAllSensors
deriving DecidableEq, Repr

/-- The functions and types of other packages that `processEvents` uses, over a state
`σ` that holds the database and the state of those packages. -/
structure EventsEnv (σ : Type) : Type 1 where
  cfg : AppConfig
  asn : Env σ
  Base64Decode : String → Except String String
  DecodeASNList : String → Except String (List AdvanceShippingNotice)
  Heartbeat : Type
  DecodeHeartbeat : String → Except String Heartbeat
  ProcessHeartbeat : Heartbeat → σ → σ × Option String
  SensorConfigNotification : Type
  DecodeSensorConfigNotification : String → Except String SensorConfigNotification
  DeviceId : SensorConfigNotification → String
  RSP : Type
  NewRSPFromConfigNotification : SensorConfigNotification → RSP
  Upsert : σ → RSP → σ × Option String
  RunState : Type
  DecodeSchedulerRunState : String → Except String RunState
  OnSchedulerRunState : RunState → σ → σ
  InventoryData : Type
  InventoryEvent : Type
  DecodeInventoryData : String → Except String InventoryData
  ProcessInventoryData : σ → InventoryData → σ × Except String InventoryEvent
  Alert : Type
  ProcessAlert : Reading → σ → σ × Except String Alert
  IsInventoryUnloadAlert : Alert → Bool
  ControllerStatusUpdate : Type
  DecodeControllerStatusUpdate : String → Except String ControllerStatusUpdate
  Status : ControllerStatusUpdate → String

/-- What `processEvents` acts on: the state behind `masterDB`, the events sent on
`invEventChannel`, the goroutines started, and, as a record of the loop, the readings
whose case has been entered, oldest first. -/
structure World (σ : Type) (E : Type) where
  masterDB : σ
  invEventChannel : List E
  goroutines : List Goroutine
  handled : List Reading

/-- The body of the loop of `processEvents` for one reading: the state it leaves and
the error it returns with, if any.  Metrics and logging are left out. -/
def processReading {σ : Type} (env : EventsEnv σ) (w0 : World σ env.InventoryEvent)
    (reading : Reading) : World σ env.InventoryEvent × Option String :=
  let w : World σ env.InventoryEvent := { w0 with handled := w0.handled ++ [reading] }
  if reading.Name = "ASN_data" then
    match env.Base64Decode reading.Value with
    | Except.error err => (w, some err)
    | Except.ok data =>
      let out := processShippingNotice env.cfg env.asn (env.DecodeASNList data) w.masterDB
      match out.err with
      | some err => ({ w with masterDB := out.db }, some err)
      | none => ({ w with masterDB := out.db }, none)
  else if reading.Name = "controller_heartbeat" then
    match env.DecodeHeartbeat reading.Value with
    | Except.error err => (w, some err)
    | Except.ok hb =>
      match env.ProcessHeartbeat hb w.masterDB with
      | (db, some err) => ({ w with masterDB := db }, some err)
      | (db, none) => ({ w with masterDB := db }, none)
  else if reading.Name = "sensor_config_notification" then
    match env.DecodeSensorConfigNotification reading.Value with
    | Except.error err => (w, some err)
    | Except.ok notification =>
      match env.Upsert w.masterDB (env.NewRSPFromConfigNotification notification) with
      | (db, some err) =>
        ({ w with masterDB := db },
          some ("unable to upsert sensor config notification for sensor "
            ++ env.DeviceId notification ++ ": " ++ err))
      | (db, none) => ({ w with masterDB := db }, none)
  else if reading.Name = "scheduler_run_state" then
    match env.DecodeSchedulerRunState reading.Value with
    | Except.error err => (w, some err)
    | Except.ok runState =>
      ({ w with masterDB := env.OnSchedulerRunState runState w.masterDB }, none)
  else if reading.Name = "inventory_data" then
    match env.DecodeInventoryData reading.Value with
    | Except.error err => (w, some err)
    | Except.ok invData =>
      match env.ProcessInventoryData w.masterDB invData with
      | (db, Except.error err) => ({ w with masterDB := db }, some err)
      | (db, Except.ok invEvent) =>
        ({ w with masterDB := db, invEventChannel := w.invEventChannel ++ [invEvent] }, none)
  else if reading.Name = "device_alert" then
    match env.ProcessAlert reading w.masterDB with
    | (db, Except.error err) => ({ w with masterDB := db }, some err)
    | (db, Except.ok rrsAlert) =>
      if env.IsInventoryUnloadAlert rrsAlert then
        ({ w with masterDB := db,
                  goroutines := w.goroutines ++ [Goroutine.deleteTagCollection] }, none)
      else ({ w with masterDB := db }, none)
  else if reading.Name = "rsp_controller_status_update" then
    match env.DecodeControllerStatusUpdate reading.Value with
    | Except.error err => (w, some err)
    | Except.ok notification =>
      if env.Status notification = "controller_ready" then
        ({ w with goroutines := w.goroutines ++ [Goroutine.queryBasicInfoAllSensors] }, none)
      else (w, none)
  else (w, none)

/-- The loop of `processEvents` over the readings: it returns at the first error. -/
def processReadings {σ : Type} (env : EventsEnv σ) :
    List Reading → World σ env.InventoryEvent → World σ env.InventoryEvent × Option String
  | [], w => (w, none)
  | reading :: rest, w =>
    match processReading env w reading with
    | (w1, some err) => (w1, some err)
    | (w1, none) => processReadings env rest w1

/-- The model of `processEvents`: the state it leaves and the pair it returns, the
continue flag and the error (`none` is `nil`). -/
def processEvents {σ : Type} (env : EventsEnv σ) (params : List Param)
    (w : World σ env.InventoryEvent) : World σ env.InventoryEvent × (Bool × Option String) :=
  match params with
  | [] => (w, (false, some "no event received"))
  | Param.other :: _ => (w, (false, some "type received is not an Event"))
  | Param.event event :: _ =>
    if event.Readings.length < 1 then (w, (false, some "event contains no Readings"))
    else
      match processReadings env event.Readings w with
      | (w1, some err) => (w1, (false, some err))
      | (w1, none) => (w1, (false, none))

/-- The names of the readings `processEvents` has a case for. -/
def knownReadingNames : List String :=
  ["ASN_data", "controller_heartbeat", "sensor_config_notification", "scheduler_run_state",
    "inventory_data", "device_alert", "rsp_controller_status_update"]

/-- An environment over the table store in which every payload decodes and only the
heartbeat processing fails. -/
def exampleEventsEnv : EventsEnv (List Tag) :=
  { cfg := exampleConfig,
    asn := exampleEnv,
    Base64Decode := fun s => Except.ok s,
    DecodeASNList := fun _ => Except.ok [exampleASN],
    Heartbeat := Unit,
    DecodeHeartbeat := fun _ => Except.ok (),
    ProcessHeartbeat := fun _ db => (db, some "heartbeat rejected"),
    SensorConfigNotification := Unit,
    DecodeSensorConfigNotification := fun _ => Except.ok (),
    DeviceId := fun _ => "RSP-150000",
    RSP := Unit,
    NewRSPFromConfigNotification := fun _ => (),
    Upsert := fun db _ => (db, none),
    RunState := Unit,
    DecodeSchedulerRunState := fun _ => Except.ok (),
    OnSchedulerRunState := fun _ db => db,
    InventoryData := Unit,
    InventoryEvent := Unit,
    DecodeInventoryData := fun _ => Except.ok (),
    ProcessInventoryData := fun db _ => (db, Except.ok ()),
    Alert := Unit,
    ProcessAlert := fun _ db => (db, Except.ok ()),
    IsInventoryUnloadAlert := fun _ => false,
    ControllerStatusUpdate := Unit,
    DecodeControllerStatusUpdate := fun _ => Except.ok (),
    Status := fun _ => "controller_ready" }

/-- The state before any event. -/
def emptyWorld : World (List Tag) exampleEventsEnv.InventoryEvent :=
  { masterDB := [], invEventChannel := [], goroutines := [], handled := [] }

/-! ## The JSON round trip -/

namespace Json

theorem hexVal_hexDigit (n : Nat) (h : n < 16) : hexVal (hexDigit n) = some n := by
  interval_cases n <;> rfl

theorem scanString_quote (rest : List Char) : scanString ('"' :: rest) = some ([], rest) := by
  rw [scanString.eq_def]; simp

theorem scanString_simple (e ch : Char) (rest : List Char) (he : e ≠ 'u')
    (hs : simpleEscape e = some ch) :
    scanString ('\\' :: e :: rest) =
      match scanString rest with
      | some (us, r) => some (StrUnit.lit ch :: us, r)
      | none => none := by
  rw [scanString.eq_def]
  simp only [Char.reduceEq, if_false, if_true, if_neg he, hs]

theorem scanString_u (h1 h2 h3 h4 : Char) (x y z w : Nat) (rest : List Char)
    (e1 : hexVal h1 = some x) (e2 : hexVal h2 = some y) (e3 : hexVal h3 = some z)
    (e4 : hexVal h4 = some w) :
    scanString ('\\' :: 'u' :: h1 :: h2 :: h3 :: h4 :: rest) =
      match scanString rest with
      | some (us, r) => some (StrUnit.esc (((x * 16 + y) * 16 + z) * 16 + w) :: us, r)
      | none => none := by
  rw [scanString.eq_def]
  simp only [Char.reduceEq, if_false, if_true, e1, e2, e3, e4]

theorem scanString_raw (c : Char) (rest : List Char) (hq : c ≠ '"') (hb : c ≠ '\\')
    (hc : ¬ c.toNat < 32) :
    scanString (c :: rest) =
      match scanString rest with
      | some (us, r) => some (StrUnit.lit c :: us, r)
      | none => none := by
  rw [scanString.eq_def]
  simp only [if_neg hq, if_neg hb, if_neg hc]

theorem scanString_escapeChar (c : Char) (tail : List Char) :
    scanString (escapeChar c ++ tail) =
      match scanString tail with
      | some (us, r) => some (encUnit c :: us, r)
      | none => none := by
  unfold escapeChar
  split_ifs with h1 h2 h3 h4 h5 h6 h7 h8
  · subst h1
    rw [List.cons_append, List.cons_append, List.nil_append,
      scanString_simple '"' '"' tail (by decide) (by decide)]
    rfl
  · subst h2
    rw [List.cons_append, List.cons_append, List.nil_append,
      scanString_simple '\\' '\\' tail (by decide) (by decide)]
    rfl
  · subst h3
    rw [List.cons_append, List.cons_append, List.nil_append,
      scanString_simple 'n' '\n' tail (by decide) (by decide)]
    rfl
  · subst h4
    rw [List.cons_append, List.cons_append, List.nil_append,
      scanString_simple 'r' '\r' tail (by decide) (by decide)]
    rfl
  · subst h5
    rw [List.cons_append, List.cons_append, List.nil_append,
      scanString_simple 't' '\t' tail (by decide) (by decide)]
    rfl
  · have hn : c.toNat < 128 := by
      rcases h6 with h | h | h | h
      · omega
      · subst h; decide
      · subst h; decide
      · subst h; decide
    have hu : encUnit c = StrUnit.esc c.toNat := by
      unfold encUnit
      rw [if_neg (by simp [h1, h2, h3, h4, h5]), if_pos (by tauto)]
    simp only [List.cons_append, List.nil_append]
    rw [scanString_u '0' '0' _ _ 0 0 (c.toNat / 16) (c.toNat % 16) tail (by decide) (by decide)
      (hexVal_hexDigit _ (by omega)) (hexVal_hexDigit _ (by omega)), hu]
    have : ((0 * 16 + 0) * 16 + c.toNat / 16) * 16 + c.toNat % 16 = c.toNat := by omega
    rw [this]
  · have hu : encUnit c = StrUnit.esc c.toNat := by
      unfold encUnit
      rw [if_neg (by simp [h1, h2, h3, h4, h5]), if_pos (by tauto)]
    simp only [List.cons_append, List.nil_append]
    rw [scanString_u '2' '0' '2' '8' 2 0 2 8 tail (by decide) (by decide) (by decide) (by decide),
      hu, h7]
  · have hu : encUnit c = StrUnit.esc c.toNat := by
      unfold encUnit
      rw [if_neg (by simp [h1, h2, h3, h4, h5]), if_pos (by tauto)]
    simp only [List.cons_append, List.nil_append]
    rw [scanString_u '2' '0' '2' '9' 2 0 2 9 tail (by decide) (by decide) (by decide) (by decide),
      hu, h8]
  · have hu : encUnit c = StrUnit.lit c := by
      unfold encUnit
      rw [if_neg (by simp [h1, h2, h3, h4, h5]), if_neg (by tauto)]
    simp only [List.cons_append, List.nil_append]
    rw [scanString_raw c tail h1 h2 (by tauto), hu]

theorem scanString_escaped (s : List Char) (rest : List Char) :
    scanString (s.flatMap escapeChar ++ '"' :: rest) = some (s.map encUnit, rest) := by
  induction s with
  | nil => simpa using scanString_quote rest
  | cons c s ih =>
    rw [List.flatMap_cons, List.append_assoc, scanString_escapeChar, ih]
    rfl

theorem decodeUnits_lit (c : Char) (us : List StrUnit) :
    decodeUnits (StrUnit.lit c :: us) = c :: decodeUnits us := by
  rw [decodeUnits.eq_def]

theorem decodeUnits_esc (n : Nat) (us : List StrUnit) (h : isSurrogate n = false) :
    decodeUnits (StrUnit.esc n :: us) = Char.ofNat n :: decodeUnits us := by
  rw [decodeUnits.eq_def]
  simp only [h]
  rfl

theorem decodeUnits_encUnit_cons (c : Char) (us : List StrUnit) :
    decodeUnits (encUnit c :: us) = c :: decodeUnits us := by
  unfold encUnit
  split_ifs with h1 h2
  · rw [decodeUnits_lit]
  · have hs : isSurrogate c.toNat = false := by
      have : c.toNat < 55296 := by
        rcases h2 with h | h | h | h | h | h
        · omega
        · subst h; decide
        · subst h; decide
        · subst h; decide
        · omega
        · omega
      simp [isSurrogate]; omega
    rw [decodeUnits_esc _ _ hs, Char.ofNat_toNat]
  · rw [decodeUnits_lit]

theorem decodeUnits_encUnit (s : List Char) : decodeUnits (s.map encUnit) = s := by
  induction s with
  | nil => rfl
  | cons c s ih => rw [List.map_cons, decodeUnits_encUnit_cons, ih]

theorem parseString_escaped (s : String) (rest : List Char) :
    parseString (s.data.flatMap escapeChar ++ '"' :: rest) = some (s, rest) := by
  unfold parseString
  rw [scanString_escaped]
  simp only [decodeUnits_encUnit]


theorem skipSpace_of_not_space (c : Char) (cs : List Char) (h : isSpace c = false) :
    skipSpace (c :: cs) = c :: cs := by
  rw [skipSpace]; simp [h]

theorem parseValue_string (fuel : Nat) (v : String) (rest : List Char) :
    parseValue fuel (encodeString v ++ rest) = some (ValKind.str v, rest) := by
  unfold parseValue encodeString
  simp only [List.cons_append, List.append_assoc, List.nil_append, if_true, parseString_escaped]

theorem decodeMembers_more (fuel : Nat) (key v : String) (rest : List Char) (st : DecodeState)
    (hk : key.data.flatMap escapeChar = key.data) :
    decodeMembers (fuel + 1)
        ('"' :: (key.data ++ '"' :: ':' :: (encodeString v ++ ',' :: '"' :: rest))) st =
      decodeMembers fuel ('"' :: rest) (applyMember st key (ValKind.str v)) := by
  rw [decodeMembers]
  have hp := parseString_escaped key (':' :: (encodeString v ++ ',' :: '"' :: rest))
  rw [hk] at hp
  simp only [if_true, hp, skipSpace_of_not_space ':' _ (by decide)]
  have he : encodeString v ++ ',' :: '"' :: rest = '"' :: (v.data.flatMap escapeChar ++ '"' :: ',' :: '"' :: rest) := by
    simp [encodeString]
  rw [he, skipSpace_of_not_space '"' _ (by decide), ← he, parseValue_string]
  simp only [skipSpace_of_not_space ',' _ (by decide), skipSpace_of_not_space '"' _ (by decide),
    if_true]

theorem decodeMembers_last (fuel : Nat) (key v : String) (rest : List Char) (st : DecodeState)
    (hk : key.data.flatMap escapeChar = key.data) :
    decodeMembers (fuel + 1)
        ('"' :: (key.data ++ '"' :: ':' :: (encodeString v ++ '}' :: rest))) st =
      some (applyMember st key (ValKind.str v), rest) := by
  rw [decodeMembers]
  have hp := parseString_escaped key (':' :: (encodeString v ++ '}' :: rest))
  rw [hk] at hp
  simp only [if_true, hp, skipSpace_of_not_space ':' _ (by decide)]
  have he : encodeString v ++ '}' :: rest = '"' :: (v.data.flatMap escapeChar ++ '"' :: '}' :: rest) := by
    simp [encodeString]
  rw [he, skipSpace_of_not_space '"' _ (by decide), ← he, parseValue_string]
  simp only [skipSpace_of_not_space '}' _ (by decide), Char.reduceEq, if_false, if_true]

theorem marshal_data (a : ASNContext) :
    (marshalASNContext a).data =
      '{' :: '"' :: ("asnId".data ++ '"' :: ':' :: (encodeString a.ASNID ++ ',' :: '"' ::
        ("eventTime".data ++ '"' :: ':' :: (encodeString a.EventTime ++ ',' :: '"' ::
        ("siteId".data ++ '"' :: ':' :: (encodeString a.SiteID ++ ',' :: '"' ::
        ("itemGtin".data ++ '"' :: ':' :: (encodeString a.ItemGTIN ++ ',' :: '"' ::
        ("itemId".data ++ '"' :: ':' :: (encodeString a.ItemID ++ '}' :: [])))))))))) := by
  simp [marshalASNContext]

theorem decodeMembers_marshal (n : Nat) (a : ASNContext) :
    decodeMembers (n + 5)
      ('"' :: ("asnId".data ++ '"' :: ':' :: (encodeString a.ASNID ++ ',' :: '"' ::
        ("eventTime".data ++ '"' :: ':' :: (encodeString a.EventTime ++ ',' :: '"' ::
        ("siteId".data ++ '"' :: ':' :: (encodeString a.SiteID ++ ',' :: '"' ::
        ("itemGtin".data ++ '"' :: ':' :: (encodeString a.ItemGTIN ++ ',' :: '"' ::
        ("itemId".data ++ '"' :: ':' :: (encodeString a.ItemID ++ '}' :: [])))))))))))
      ⟨ASNContext.zero, false⟩ = some (⟨a, false⟩, []) := by
  rw [decodeMembers_more _ _ _ _ _ (by decide), decodeMembers_more _ _ _ _ _ (by decide),
    decodeMembers_more _ _ _ _ _ (by decide), decodeMembers_more _ _ _ _ _ (by decide),
    decodeMembers_last _ _ _ _ _ (by decide)]
  simp [applyMember, show fieldOf "asnId" = some Field.asnId by decide,
    show fieldOf "eventTime" = some Field.eventTime by decide,
    show fieldOf "siteId" = some Field.siteId by decide,
    show fieldOf "itemGtin" = some Field.itemGtin by decide,
    show fieldOf "itemId" = some Field.itemId by decide, setField, ASNContext.zero]

theorem unmarshal_marshal (a : ASNContext) :
    unmarshalASNContext (marshalASNContext a) = some a := by
  have hlen : ∃ n, 2 * (skipSpace (marshalASNContext a).data).length + 2 = n + 5 := by
    refine ⟨2 * (skipSpace (marshalASNContext a).data).length + 2 - 5, ?_⟩
    have : 2 ≤ (skipSpace (marshalASNContext a).data).length := by
      rw [marshal_data, skipSpace_of_not_space '{' _ (by decide)]
      simp
    omega
  obtain ⟨n, hn⟩ := hlen
  unfold unmarshalASNContext
  dsimp only
  rw [hn, marshal_data, skipSpace_of_not_space '{' _ (by decide)]
  simp only [if_true, skipSpace_of_not_space '"' _ (by decide), Char.reduceEq, if_false]
  rw [decodeMembers_marshal]
  simp [skipSpace]

end Json

/-! ## Tag classification -/

/-- C1: a tag is read by the RSP controller exactly when it is neither empty nor a
shipping-notice entry. -/
theorem isTagReadByRspController_iff (cfg : AppConfig) (t : Tag) :
    t.IsTagReadByRspController cfg = true ↔
      (t.IsEmpty = false ∧ t.IsShippingNoticeEntry cfg = false) := by
  simp [Tag.IsTagReadByRspController]

/-- C2: for every configured ASN facility `F`, a tag is a shipping-notice entry exactly
when its context is non-empty, every sensor-derived field is zero or empty, its facility
is `F`, and its context unmarshals to an `ASNContext` with five non-empty fields. -/
theorem isShippingNoticeEntry_iff (F : String) (filters : List String) (t : Tag) :
    t.IsShippingNoticeEntry ⟨F, filters⟩ = true ↔
      (t.EpcContext ≠ "" ∧ t.FilterValue = 0 ∧ t.Tid = "" ∧ t.EpcEncodeFormat = "" ∧
        t.FacilityID = F ∧ t.Event = "" ∧ t.Arrived = 0 ∧ t.LastRead = 0 ∧ t.Source = "" ∧
        (sliceElems t.LocationHistory).length = 0 ∧ t.EpcState = "" ∧ t.QualifiedState = "" ∧
        ∃ a : ASNContext, Json.unmarshalASNContext t.EpcContext = some a ∧
          a.ASNID ≠ "" ∧ a.EventTime ≠ "" ∧ a.SiteID ≠ "" ∧ a.ItemGTIN ≠ "" ∧ a.ItemID ≠ "") := by
  unfold Tag.IsShippingNoticeEntry
  constructor
  · intro h
    split at h
    · exact absurd h (by simp)
    · rename_i hg
      simp only [not_or, not_not] at hg
      obtain ⟨h1, h2, h3, h4, h5, h6, h7, h8, h9, h10, h11, h12⟩ := hg
      refine ⟨h1, h2, h3, h4, h5, h6, h7, h8, h9, h10, h11, h12, ?_⟩
      split at h
      · exact absurd h (by simp)
      · rename_i a ha
        refine ⟨a, ha, ?_⟩
        simpa [bne_iff_ne, and_assoc] using h
  · rintro ⟨h1, h2, h3, h4, h5, h6, h7, h8, h9, h10, h11, h12, a, ha, hf⟩
    rw [if_neg (by simp [h1, h2, h3, h4, h5, h6, h7, h8, h9, h10, h11, h12]), ha]
    simpa [bne_iff_ne, and_assoc] using hf


theorem IsEmpty_EpcContext (t : Tag) (h : t.IsEmpty = true) : t.EpcContext = "" := by
  simp only [Tag.IsEmpty, Bool.and_eq_true, beq_iff_eq] at h
  exact h.1.1.2

/-- C4: a tag with any sensor-derived field set is not a shipping-notice entry and is
read by the controller, and stays so whatever its `EpcContext` is replaced with. -/
theorem sensor_fields_force_sensor_read (cfg : AppConfig) (t : Tag)
    (h : t.FilterValue ≠ 0 ∨ t.Tid ≠ "" ∨ t.EpcEncodeFormat ≠ "" ∨ t.Event ≠ "" ∨
      t.Arrived ≠ 0 ∨ t.LastRead ≠ 0 ∨ t.Source ≠ "" ∨
      (sliceElems t.LocationHistory).length ≠ 0 ∨ t.EpcState ≠ "" ∨ t.QualifiedState ≠ "") :
    (t.IsShippingNoticeEntry cfg = false ∧ t.IsTagReadByRspController cfg = true) ∧
      ∀ ctx : String,
        ({ t with EpcContext := ctx } : Tag).IsShippingNoticeEntry cfg = false ∧
        ({ t with EpcContext := ctx } : Tag).IsTagReadByRspController cfg = true := by
  have key : ∀ ctx : String,
      ({ t with EpcContext := ctx } : Tag).IsShippingNoticeEntry cfg = false ∧
      ({ t with EpcContext := ctx } : Tag).IsTagReadByRspController cfg = true := by
    intro ctx
    have hs : ({ t with EpcContext := ctx } : Tag).IsShippingNoticeEntry cfg = false := by
      unfold Tag.IsShippingNoticeEntry
      rw [if_pos]
      simp only
      tauto
    have he : ({ t with EpcContext := ctx } : Tag).IsEmpty = false := by
      cases hE : ({ t with EpcContext := ctx } : Tag).IsEmpty with
      | false => rfl
      | true =>
        exfalso
        simp only [Tag.IsEmpty, Bool.and_eq_true, beq_iff_eq] at hE
        obtain ⟨⟨⟨⟨⟨⟨⟨⟨⟨⟨⟨⟨⟨⟨⟨⟨e1, e2⟩, e3⟩, e4⟩, e5⟩, e6⟩, e7⟩, e8⟩, e9⟩, e10⟩, e11⟩, e12⟩,
          e13⟩, e14⟩, e15⟩, e16⟩, e17⟩ := hE
        simp only [e4, e5, e6, e8, e9, e10, e11, e12, e13, e14, sliceElems] at h
        simp at h
    exact ⟨hs, by simp [Tag.IsTagReadByRspController, hs, he]⟩
  exact ⟨key t.EpcContext, key⟩

/-- C4 at a tag read by a fixed sensor. -/
theorem sensor_fields_force_sensor_read_witness :
    sensorTag.Event ≠ "" ∧
    ((sensorTag.IsShippingNoticeEntry exampleConfig = false ∧
        sensorTag.IsTagReadByRspController exampleConfig = true) ∧
      ∀ ctx : String,
        ({ sensorTag with EpcContext := ctx } : Tag).IsShippingNoticeEntry exampleConfig = false ∧
        ({ sensorTag with EpcContext := ctx } : Tag).IsTagReadByRspController exampleConfig
          = true) :=
  ⟨by decide,
    sensor_fields_force_sensor_read exampleConfig sensorTag
      (Or.inr (Or.inr (Or.inr (Or.inl (by decide)))))⟩

/-! ## One EPC of a shipping notice -/

theorem processEpc_filtered {σ : Type} (cfg : AppConfig) (env : Env σ) (db : σ)
    (asn : AdvanceShippingNotice) (asnItem : ASNInputItem) (acc : Acc) (asnEpc : String)
    (hf : cfg.EpcFilters ≠ []) (hw : env.IsTagWhitelisted asnEpc cfg.EpcFilters = false) :
    processEpc cfg env db asn asnItem acc asnEpc = acc := by
  unfold processEpc
  have hl : cfg.EpcFilters.length > 0 := List.length_pos.mpr hf
  simp [tempTagOf, hl, hw]

theorem processEpc_pass {σ : Type} (cfg : AppConfig) (env : Env σ) (db : σ)
    (asn : AdvanceShippingNotice) (asnItem : ASNInputItem) (acc : Acc) (asnEpc : String)
    (hp : cfg.EpcFilters = [] ∨ env.IsTagWhitelisted asnEpc cfg.EpcFilters = true) :
    processEpc cfg env db asn asnItem acc asnEpc =
      match env.FindByEpc db asnEpc with
      | Except.error _ => { acc with lookups := acc.lookups ++ [asnEpc] }
      | Except.ok tagFromDB =>
        if tagFromDB.IsEmpty then
          { tagData := acc.tagData ++
              [{ tempTagOf env asnEpc with
                 FacilityID := cfg.AdvancedShippingNoticeFacilityID,
                 EpcContext := Json.marshalASNContext (asnContextOf asn asnItem) }],
            lookups := acc.lookups ++ [asnEpc] }
        else
          { tagData := acc.tagData ++
              [{ tagFromDB with EpcContext := Json.marshalASNContext (asnContextOf asn asnItem) }],
            lookups := acc.lookups ++ [asnEpc] } := by
  unfold processEpc
  have hn : ¬ (cfg.EpcFilters.length > 0 ∧
      env.IsTagWhitelisted (tempTagOf env asnEpc).Epc cfg.EpcFilters = false) := by
    rintro ⟨h1, h2⟩
    rcases hp with h | h
    · simp [h] at h1
    · simp [tempTagOf, h] at h2
  simp only [if_neg hn]
  rfl

/-- C5: for an EPC that passes the whitelist and whose lookup returns the empty tag,
one tag is queued: it has that EPC, the configured ASN facility, the marshalled
`ASNContext` of the enclosing ASN and item, and zero or empty sensor-derived fields. -/
theorem absent_epc_queues_default_tag {σ : Type} (cfg : AppConfig) (env : Env σ) (db : σ)
    (asn : AdvanceShippingNotice) (asnItem : ASNInputItem) (acc : Acc) (asnEpc : String)
    (tagFromDB : Tag)
    (hp : cfg.EpcFilters = [] ∨ env.IsTagWhitelisted asnEpc cfg.EpcFilters = true)
    (hfind : env.FindByEpc db asnEpc = Except.ok tagFromDB)
    (hempty : tagFromDB.IsEmpty = true) :
    ∃ q : Tag,
      (processEpc cfg env db asn asnItem acc asnEpc).tagData = acc.tagData ++ [q] ∧
      q.Epc = asnEpc ∧
      q.FacilityID = cfg.AdvancedShippingNoticeFacilityID ∧
      q.EpcContext = Json.marshalASNContext
        { ASNID := asn.ID, EventTime := asn.EventTime, SiteID := asn.SiteID,
          ItemGTIN := asnItem.ItemGTIN, ItemID := asnItem.ItemID } ∧
      q.FilterValue = 0 ∧ q.Tid = "" ∧ q.EpcEncodeFormat = "" ∧ q.Event = "" ∧
      q.Arrived = 0 ∧ q.LastRead = 0 ∧ q.Source = "" ∧ q.LocationHistory = none ∧
      q.EpcState = "" ∧ q.QualifiedState = "" := by
  rw [processEpc_pass cfg env db asn asnItem acc asnEpc hp, hfind]
  simp only [hempty, if_true]
  exact ⟨_, rfl, rfl, rfl, rfl, rfl, rfl, rfl, rfl, rfl, rfl, rfl, rfl, rfl, rfl⟩

/-- C5 at `E9` looked up in the empty store. -/
theorem absent_epc_queues_default_tag_witness :
    (exampleConfig.EpcFilters = [] ∨
        exampleEnv.IsTagWhitelisted "E9" exampleConfig.EpcFilters = true) ∧
    exampleEnv.FindByEpc [] "E9" = Except.ok Tag.zero ∧
    Tag.zero.IsEmpty = true ∧
    ∃ q : Tag,
      (processEpc exampleConfig exampleEnv [] exampleASN exampleItem ⟨[], []⟩ "E9").tagData
        = [] ++ [q] ∧
      q.Epc = "E9" ∧
      q.FacilityID = exampleConfig.AdvancedShippingNoticeFacilityID ∧
      q.EpcContext = Json.marshalASNContext
        { ASNID := exampleASN.ID, EventTime := exampleASN.EventTime,
          SiteID := exampleASN.SiteID, ItemGTIN := exampleItem.ItemGTIN,
          ItemID := exampleItem.ItemID } ∧
      q.FilterValue = 0 ∧ q.Tid = "" ∧ q.EpcEncodeFormat = "" ∧ q.Event = "" ∧
      q.Arrived = 0 ∧ q.LastRead = 0 ∧ q.Source = "" ∧ q.LocationHistory = none ∧
      q.EpcState = "" ∧ q.QualifiedState = "" :=
  ⟨Or.inl rfl, rfl, by decide,
    absent_epc_queues_default_tag exampleConfig exampleEnv [] exampleASN exampleItem ⟨[], []⟩
      "E9" Tag.zero (Or.inl rfl) rfl (by decide)⟩

/-- C6: for an EPC that passes the whitelist and whose lookup returns a non-empty tag,
the queued tag is the stored tag with only `EpcContext` replaced by the marshalled
`ASNContext` of the enclosing ASN and item. -/
theorem present_epc_keeps_fields {σ : Type} (cfg : AppConfig) (env : Env σ) (db : σ)
    (asn : AdvanceShippingNotice) (asnItem : ASNInputItem) (acc : Acc) (asnEpc : String)
    (tagFromDB : Tag)
    (hp : cfg.EpcFilters = [] ∨ env.IsTagWhitelisted asnEpc cfg.EpcFilters = true)
    (hfind : env.FindByEpc db asnEpc = Except.ok tagFromDB)
    (hne : tagFromDB.IsEmpty = false) :
    (processEpc cfg env db asn asnItem acc asnEpc).tagData =
      acc.tagData ++
        [{ tagFromDB with
           EpcContext := Json.marshalASNContext
            { ASNID := asn.ID, EventTime := asn.EventTime, SiteID := asn.SiteID,
              ItemGTIN := asnItem.ItemGTIN, ItemID := asnItem.ItemID } }] := by
  rw [processEpc_pass cfg env db asn asnItem acc asnEpc hp, hfind]
  simp only [hne]
  rfl

/-- C6 at `E9` looked up in a store holding a sensor-read tag for it. -/
theorem present_epc_keeps_fields_witness :
    (exampleConfig.EpcFilters = [] ∨
        exampleEnv.IsTagWhitelisted "E9" exampleConfig.EpcFilters = true) ∧
    exampleEnv.FindByEpc [sensorTag] "E9" = Except.ok sensorTag ∧
    sensorTag.IsEmpty = false ∧
    (processEpc exampleConfig exampleEnv [sensorTag] exampleASN exampleItem ⟨[], []⟩ "E9").tagData =
      [] ++
        [{ sensorTag with
           EpcContext := Json.marshalASNContext
            { ASNID := exampleASN.ID, EventTime := exampleASN.EventTime,
              SiteID := exampleASN.SiteID, ItemGTIN := exampleItem.ItemGTIN,
              ItemID := exampleItem.ItemID } }] :=
  ⟨Or.inl rfl, rfl, by decide,
    present_epc_keeps_fields exampleConfig exampleEnv [sensorTag] exampleASN exampleItem ⟨[], []⟩
      "E9" sensorTag (Or.inl rfl) rfl (by decide)⟩

/-- C3, at the failing input: the notice `A1` whose one item has an empty `itemGtin` is
accepted on the empty store, `E9` is absent from the store, and the tag written for it,
which exists only because of the notice, is classified as read by the controller and
not as a shipping-notice entry. -/
theorem asn_tag_without_gtin_is_sensor_read :
    exampleEnv.FindByEpc [] "E9" = Except.ok Tag.zero ∧ Tag.zero.IsEmpty = true ∧
    (processShippingNotice exampleConfig exampleEnv (Except.ok [noGtinASN]) []).err = none ∧
    (processShippingNotice exampleConfig exampleEnv (Except.ok [noGtinASN]) []).db.map
        (fun t => (t.Epc, t.IsTagReadByRspController exampleConfig,
          t.IsShippingNoticeEntry exampleConfig)) = [("E9", true, false)] :=
  ⟨rfl, by decide, by decide, by decide⟩

/-! ## The loops -/

theorem processASNs_missing {σ : Type} (cfg : AppConfig) (env : Env σ)
    (asns : List AdvanceShippingNotice) (db : σ) (acc : Acc)
    (h : ∃ asn ∈ asns, asnMissingData asn = true) :
    (processASNs cfg env asns db acc).err ≠ none := by
  induction asns generalizing db acc with
  | nil => simp at h
  | cons a rest ih =>
    rw [processASNs]
    by_cases ha : asnMissingData a = true
    · simp [ha]
    · have hr : ∃ asn ∈ rest, asnMissingData asn = true := by
        obtain ⟨x, hx, hmx⟩ := h
        rcases List.mem_cons.mp hx with rfl | hx
        · exact absurd hmx ha
        · exact ⟨x, hx, hmx⟩
      simp only [ha]
      simp only [Bool.false_eq_true, if_false]
      split_ifs
      · split
        · simp
        · exact ih _ _ hr
      · exact ih _ _ hr

/-- C8: when some ASN of the decoded list has an empty `asnId`, `eventTime` or
`siteId`, or a nil items list, `processShippingNotice` returns an error. -/
theorem missing_data_is_rejected {σ : Type} (cfg : AppConfig) (env : Env σ) (db : σ)
    (asns : List AdvanceShippingNotice)
    (h : ∃ asn ∈ asns, asn.ID = "" ∨ asn.EventTime = "" ∨ asn.SiteID = "" ∨ asn.Items = none) :
    (processShippingNotice cfg env (Except.ok asns) db).err ≠ none := by
  unfold processShippingNotice
  apply processASNs_missing
  obtain ⟨asn, hm, hx⟩ := h
  exact ⟨asn, hm, by simpa [asnMissingData] using hx⟩

/-- C8 at a list whose second notice has no items list. -/
theorem missing_data_is_rejected_witness :
    (∃ asn ∈ [exampleASN, { exampleASN with Items := none }],
        asn.ID = "" ∨ asn.EventTime = "" ∨ asn.SiteID = "" ∨ asn.Items = none) ∧
      (processShippingNotice exampleConfig exampleEnv
        (Except.ok [exampleASN, { exampleASN with Items := none }]) []).err ≠ none :=
  ⟨⟨{ exampleASN with Items := none }, by simp, Or.inr (Or.inr (Or.inr rfl))⟩,
    missing_data_is_rejected exampleConfig exampleEnv [] _
      ⟨{ exampleASN with Items := none }, by simp, Or.inr (Or.inr (Or.inr rfl))⟩⟩

/-- C9 as stated fails: the lookup of `E9` fails, it is the only lookup made, and
`processShippingNotice` returns no error. -/
theorem lookup_failure_is_not_returned :
    failingLookupEnv.FindByEpc () "E9" = Except.error "connection refused" ∧
      (processShippingNotice exampleConfig failingLookupEnv (Except.ok [exampleASN]) ()).acc.lookups
        = ["E9"] ∧
      (processShippingNotice exampleConfig failingLookupEnv (Except.ok [exampleASN]) ()).err
        = none :=
  ⟨rfl, by decide, by decide⟩

theorem processEpc_lookup_failure {σ : Type} (cfg : AppConfig) (env : Env σ) (db : σ)
    (asn : AdvanceShippingNotice) (asnItem : ASNInputItem) (a : Acc) (asnEpc e : String)
    (hfind : env.FindByEpc db asnEpc = Except.error e) :
    (processEpc cfg env db asn asnItem a asnEpc).tagData = a.tagData := by
  unfold processEpc
  dsimp only
  split_ifs
  · rfl
  · simp only [tempTagOf, hfind]

theorem processEpc_tagData_congr {σ : Type} (cfg : AppConfig) (env : Env σ) (db : σ)
    (asn : AdvanceShippingNotice) (asnItem : ASNInputItem) (a b : Acc) (asnEpc : String)
    (h : a.tagData = b.tagData) :
    (processEpc cfg env db asn asnItem a asnEpc).tagData =
      (processEpc cfg env db asn asnItem b asnEpc).tagData := by
  unfold processEpc
  dsimp only
  split_ifs
  · exact h
  · split
    · exact h
    · split_ifs
      · simp only [h]
      · simp only [h]

theorem foldl_processEpc_tagData_congr {σ : Type} (cfg : AppConfig) (env : Env σ) (db : σ)
    (asn : AdvanceShippingNotice) (asnItem : ASNInputItem) (epcs : List String) (a b : Acc)
    (h : a.tagData = b.tagData) :
    (epcs.foldl (processEpc cfg env db asn asnItem) a).tagData =
      (epcs.foldl (processEpc cfg env db asn asnItem) b).tagData := by
  induction epcs generalizing a b with
  | nil => exact h
  | cons x xs ih =>
    rw [List.foldl_cons, List.foldl_cons]
    exact ih _ _ (processEpc_tagData_congr cfg env db asn asnItem a b x h)

theorem processEpc_item_irrelevant {σ : Type} (cfg : AppConfig) (env : Env σ) (db : σ)
    (asn : AdvanceShippingNotice) (i j : ASNInputItem) (a : Acc) (asnEpc : String)
    (hg : i.ItemGTIN = j.ItemGTIN) (hi : i.ItemID = j.ItemID) :
    processEpc cfg env db asn i a asnEpc = processEpc cfg env db asn j a asnEpc := by
  unfold processEpc asnContextOf
  rw [hg, hi]

theorem processASNs_append {σ : Type} (cfg : AppConfig) (env : Env σ)
    (pre rest : List AdvanceShippingNotice) (db : σ) (acc : Acc)
    (hpre : (processASNs cfg env pre db acc).err = none) :
    processASNs cfg env (pre ++ rest) db acc =
      processASNs cfg env rest (processASNs cfg env pre db acc).db
        (processASNs cfg env pre db acc).acc := by
  induction pre generalizing db acc with
  | nil =>
    simp only [List.nil_append]
    rw [processASNs]
  | cons a tl ih =>
    simp only [List.cons_append]
    rw [processASNs] at hpre
    rw [processASNs, processASNs]
    by_cases ha : asnMissingData a = true
    · simp [ha] at hpre
    · simp only [ha, Bool.false_eq_true, if_false] at hpre ⊢
      split_ifs at hpre ⊢ with hlen
      · split at hpre
        · simp at hpre
        · rename_i db1 heq
          exact ih _ _ hpre
      · exact ih _ _ hpre

theorem processASNs_ok {σ : Type} (cfg : AppConfig) (env : Env σ)
    (asns : List AdvanceShippingNotice) (db : σ) (acc : Acc)
    (hdata : ∀ a ∈ asns, asnMissingData a = false)
    (hrep : ∀ (s : σ) (tags : List Tag), (env.Replace s tags).2 = none) :
    (processASNs cfg env asns db acc).err = none := by
  induction asns generalizing db acc with
  | nil => rw [processASNs]
  | cons a tl ih =>
    have ha : asnMissingData a = false := hdata a (List.mem_cons_self _ _)
    have htl : ∀ x ∈ tl, asnMissingData x = false := fun x hx =>
      hdata x (List.mem_cons_of_mem _ hx)
    rw [processASNs]
    simp only [ha, Bool.false_eq_true, if_false]
    split_ifs
    · split
      · rename_i db1 e heq
        have := hrep db (processItems cfg env db a acc).tagData
        rw [heq] at this
        simp at this
      · exact ih _ _ htl
    · exact ih _ _ htl

theorem processASNs_err_source {σ : Type} (cfg : AppConfig) (env : Env σ)
    (asns : List AdvanceShippingNotice) (db : σ) (acc : Acc) (x : String)
    (h : (processASNs cfg env asns db acc).err = some x) :
    x = "ASN is missing data" ∨
      ∃ (s : σ) (tags : List Tag) (e : String),
        (env.Replace s tags).2 = some e ∧ x = "error replacing tags: " ++ e := by
  induction asns generalizing db acc with
  | nil =>
    rw [processASNs] at h
    simp at h
  | cons a tl ih =>
    rw [processASNs] at h
    by_cases ha : asnMissingData a = true
    · simp only [ha, if_true, Option.some.injEq] at h
      exact Or.inl h.symm
    · simp only [ha, Bool.false_eq_true, if_false] at h
      split_ifs at h
      · split at h
        · rename_i db1 e heq
          simp only [Option.some.injEq] at h
          exact Or.inr ⟨db, (processItems cfg env db a acc).tagData, e, by rw [heq], h.symm⟩
        · exact ih _ _ h
      · exact ih _ _ h

/-- C9, amended.  A failed `FindByEpc` is not returned: the error of
`processShippingNotice` is that of the decoder, the missing-data error or the wrapped
error of a `Replace`, and it is `nil` whenever no ASN misses data and no `Replace`
fails, whatever the lookups answer.  No tag is queued for the EPC whose lookup fails
and the EPCs after it queue what they queue without it.  A `Replace` that fails on the
queued tags, at whatever ASN of the payload, makes `processShippingNotice` return its
error, wrapped. -/
theorem lookup_failure_skipped_replace_failure_returned {σ : Type} (cfg : AppConfig)
    (env : Env σ) :
    (∀ (decoded : Except String (List AdvanceShippingNotice)) (db : σ) (x : String),
      (processShippingNotice cfg env decoded db).err = some x →
      (∃ e, decoded = Except.error e ∧ x = "unable to Decode data: " ++ e) ∨
      x = "ASN is missing data" ∨
      ∃ (s : σ) (tags : List Tag) (e : String),
        (env.Replace s tags).2 = some e ∧ x = "error replacing tags: " ++ e) ∧
    (∀ (asns : List AdvanceShippingNotice) (db : σ),
      (∀ a ∈ asns, asnMissingData a = false) →
      (∀ (s : σ) (tags : List Tag), (env.Replace s tags).2 = none) →
      (processShippingNotice cfg env (Except.ok asns) db).err = none) ∧
    (∀ (db : σ) (asn : AdvanceShippingNotice) (asnItem : ASNInputItem) (acc : Acc)
        (pre post : List String) (asnEpc e : String),
      env.FindByEpc db asnEpc = Except.error e →
      (processEpc cfg env db asn asnItem acc asnEpc).tagData = acc.tagData ∧
      (processItem cfg env db asn acc
          { asnItem with EPCs := some (pre ++ asnEpc :: post) }).tagData =
        (processItem cfg env db asn acc { asnItem with EPCs := some (pre ++ post) }).tagData) ∧
    (∀ (pre : List AdvanceShippingNotice) (asn : AdvanceShippingNotice)
        (post : List AdvanceShippingNotice) (db db1 : σ) (e : String),
      (processASNs cfg env pre (env.ProcessIncomingASNList db (pre ++ asn :: post))
        ⟨[], []⟩).err = none →
      asnMissingData asn = false →
      (processItems cfg env
        (processASNs cfg env pre (env.ProcessIncomingASNList db (pre ++ asn :: post))
          ⟨[], []⟩).db asn
        (processASNs cfg env pre (env.ProcessIncomingASNList db (pre ++ asn :: post))
          ⟨[], []⟩).acc).tagData ≠ [] →
      env.Replace
        (processASNs cfg env pre (env.ProcessIncomingASNList db (pre ++ asn :: post))
          ⟨[], []⟩).db
        (processItems cfg env
          (processASNs cfg env pre (env.ProcessIncomingASNList db (pre ++ asn :: post))
            ⟨[], []⟩).db asn
          (processASNs cfg env pre (env.ProcessIncomingASNList db (pre ++ asn :: post))
            ⟨[], []⟩).acc).tagData = (db1, some e) →
      (processShippingNotice cfg env (Except.ok (pre ++ asn :: post)) db).err =
        some ("error replacing tags: " ++ e)) := by
  refine ⟨?_, ?_, ?_, ?_⟩
  · intro decoded db x h
    cases decoded with
    | error e =>
      simp only [processShippingNotice, Option.some.injEq] at h
      exact Or.inl ⟨e, rfl, h.symm⟩
    | ok asns =>
      exact Or.inr (processASNs_err_source cfg env asns _ _ x h)
  · intro asns db hdata hrep
    exact processASNs_ok cfg env asns _ _ hdata hrep
  · intro db asn asnItem acc pre post asnEpc e hfind
    refine ⟨processEpc_lookup_failure cfg env db asn asnItem acc asnEpc e hfind, ?_⟩
    have hi : ∀ (l : List String) (a : Acc) (y : String),
        processEpc cfg env db asn { asnItem with EPCs := some l } a y =
          processEpc cfg env db asn asnItem a y := fun l a y =>
      processEpc_item_irrelevant cfg env db asn _ _ a y rfl rfl
    unfold processItem
    simp only [sliceElems, hi, List.foldl_append, List.foldl_cons]
    exact foldl_processEpc_tagData_congr cfg env db asn asnItem post _ _
      (processEpc_lookup_failure cfg env db asn asnItem _ asnEpc e hfind)
  · intro pre asn post db db1 e hpre hasn hne hrep
    unfold processShippingNotice
    simp only
    rw [processASNs_append cfg env pre (asn :: post) _ _ hpre, processASNs]
    simp only [hasn, Bool.false_eq_true, if_false]
    rw [if_pos (List.length_pos.mpr hne), hrep]

/-- C9, amended, at a store whose lookups fail and at one whose `Replace` fails on the
second notice of the payload, the first one having no EPC. -/
theorem lookup_failure_skipped_replace_failure_returned_witness :
    (processShippingNotice exampleConfig failingLookupEnv (Except.ok [exampleASN, exampleASN])
      ()).err = none ∧
    failingLookupEnv.FindByEpc () "E9" = Except.error "connection refused" ∧
    ((processEpc exampleConfig failingLookupEnv () exampleASN exampleItem ⟨[], []⟩ "E9").tagData
        = [] ∧
      (processItem exampleConfig failingLookupEnv () exampleASN ⟨[], []⟩
          { exampleItem with EPCs := some (["E8"] ++ "E9" :: ["E10"]) }).tagData =
        (processItem exampleConfig failingLookupEnv () exampleASN ⟨[], []⟩
          { exampleItem with EPCs := some (["E8"] ++ ["E10"]) }).tagData) ∧
    (processShippingNotice exampleConfig failingReplaceEnv
      (Except.ok ([{ exampleASN with Items := some [] }] ++ exampleASN :: [otherASN])) []).err =
        some ("error replacing tags: " ++ "connection refused") :=
  ⟨(lookup_failure_skipped_replace_failure_returned exampleConfig failingLookupEnv).2.1
      [exampleASN, exampleASN] () (by decide) (fun _ _ => rfl),
    rfl,
    (lookup_failure_skipped_replace_failure_returned exampleConfig failingLookupEnv).2.2.1
      () exampleASN exampleItem ⟨[], []⟩ ["E8"] ["E10"] "E9" "connection refused" rfl,
    (lookup_failure_skipped_replace_failure_returned exampleConfig failingReplaceEnv).2.2.2
      [{ exampleASN with Items := some [] }] exampleASN [otherASN] [] [] "connection refused"
      (by decide) (by decide) (by decide) rfl⟩

theorem processItem_lookups {σ : Type} (cfg : AppConfig) (env : Env σ) (db : σ)
    (asn : AdvanceShippingNotice) (acc : Acc) (asnItem : ASNInputItem)
    (hf : cfg.EpcFilters = []) :
    (processItem cfg env db asn acc asnItem).lookups = acc.lookups ++ sliceElems asnItem.EPCs := by
  unfold processItem
  generalize sliceElems asnItem.EPCs = epcs
  induction epcs generalizing acc with
  | nil => simp
  | cons e es ih =>
    rw [List.foldl_cons, ih, processEpc_pass cfg env db asn asnItem acc e (Or.inl hf)]
    split
    · simp
    · split_ifs <;> simp

theorem processItems_lookups {σ : Type} (cfg : AppConfig) (env : Env σ) (db : σ)
    (asn : AdvanceShippingNotice) (acc : Acc) (hf : cfg.EpcFilters = []) :
    (processItems cfg env db asn acc).lookups =
      acc.lookups ++ (sliceElems asn.Items).flatMap (fun i => sliceElems i.EPCs) := by
  unfold processItems
  generalize sliceElems asn.Items = items
  induction items generalizing acc with
  | nil => simp
  | cons i is ih =>
    rw [List.foldl_cons, ih, processItem_lookups cfg env db asn acc i hf]
    simp

/-- C10: with a non-empty `EpcFilters`, an EPC the whitelist rejects causes no lookup
and queues no tag; with an empty `EpcFilters`, every EPC of every item of the ASN is
looked up, in order, whatever `IsTagWhitelisted` answers. -/
theorem whitelist_gates_lookup {σ : Type} (cfg : AppConfig) (env : Env σ) (db : σ)
    (asn : AdvanceShippingNotice) (asnItem : ASNInputItem) (acc : Acc) (asnEpc : String) :
    (cfg.EpcFilters ≠ [] → env.IsTagWhitelisted asnEpc cfg.EpcFilters = false →
      (processEpc cfg env db asn asnItem acc asnEpc).lookups = acc.lookups ∧
      (processEpc cfg env db asn asnItem acc asnEpc).tagData = acc.tagData) ∧
    (cfg.EpcFilters = [] →
      (processItems cfg env db asn acc).lookups =
        acc.lookups ++ (sliceElems asn.Items).flatMap (fun i => sliceElems i.EPCs)) := by
  constructor
  · intro hf hw
    rw [processEpc_filtered cfg env db asn asnItem acc asnEpc hf hw]
    exact ⟨rfl, rfl⟩
  · exact processItems_lookups cfg env db asn acc

/-- C10 at `E9` against the filter `30`, and at a configuration without filters. -/
theorem whitelist_gates_lookup_witness :
    ((processEpc filteringConfig exampleEnv [] exampleASN exampleItem ⟨[], []⟩ "E9").lookups = [] ∧
      (processEpc filteringConfig exampleEnv [] exampleASN exampleItem ⟨[], []⟩ "E9").tagData = []) ∧
    (processItems exampleConfig exampleEnv [] exampleASN ⟨[], []⟩).lookups = [] ++ ["E9"] :=
  ⟨(whitelist_gates_lookup filteringConfig exampleEnv [] exampleASN exampleItem ⟨[], []⟩ "E9").1 (by decide)
      (by decide),
    (whitelist_gates_lookup exampleConfig exampleEnv [] exampleASN exampleItem ⟨[], []⟩ "E9").2 rfl⟩

/-! ## The table store -/

namespace MapStore

theorem find_nil (e : String) : FindByEpc [] e = Tag.zero := rfl

theorem find_cons (x : Tag) (xs : List Tag) (e : String) :
    FindByEpc (x :: xs) e = if x.Epc = e then x else FindByEpc xs e := by
  unfold FindByEpc
  rw [List.find?_cons]
  by_cases h : x.Epc = e
  · simp [h]
  · have hb : (x.Epc == e) = false := by simpa using h
    simp [h, hb]

theorem find_upsert (t : Tag) (s : List Tag) (e : String) :
    FindByEpc (upsert t s) e = if t.Epc = e then t else FindByEpc s e := by
  induction s with
  | nil => rw [upsert, find_cons]
  | cons x xs ih =>
    unfold upsert
    by_cases hx : x.Epc = t.Epc
    · rw [if_pos hx, find_cons, find_cons]
      by_cases h : t.Epc = e
      · simp [h]
      · have : ¬ x.Epc = e := by rw [hx]; exact h
        simp [h, this]
    · rw [if_neg hx, find_cons, find_cons, ih]
      by_cases hxe : x.Epc = e
      · have : ¬ t.Epc = e := by rw [← hxe]; exact fun h => hx h.symm
        simp [hxe, this]
      · simp [hxe]

theorem find_Replace (tags : List Tag) (s : List Tag) (e : String) :
    FindByEpc (Replace s tags) e =
      tags.foldl (fun r t => if t.Epc = e then t else r) (FindByEpc s e) := by
  unfold Replace
  induction tags generalizing s with
  | nil => rfl
  | cons t ts ih => rw [List.foldl_cons, ih, find_upsert, List.foldl_cons]

theorem find_Replace_ctx (tags : List Tag) (s : List Tag) (e : String) :
    (FindByEpc (Replace s tags) e).EpcContext =
      ctxAfter e (tags.map tagKey) (FindByEpc s e).EpcContext := by
  rw [find_Replace]
  generalize FindByEpc s e = r
  unfold ctxAfter
  induction tags generalizing r with
  | nil => rfl
  | cons t ts ih =>
    rw [List.foldl_cons, ih, List.map_cons, List.foldl_cons]
    by_cases h : t.Epc = e <;> simp [tagKey, h]

theorem find_epc (s : List Tag) (e : String) :
    (FindByEpc s e).Epc = e ∨ FindByEpc s e = Tag.zero := by
  unfold FindByEpc
  cases h : s.find? (fun t => t.Epc == e) with
  | none => right; rfl
  | some t =>
    left
    have := List.find?_some h
    simpa using this

end MapStore

theorem ctxAfter_snoc (e : String) (kv : List (String × String)) (p : String × String)
    (c : String) :
    ctxAfter e (kv ++ [p]) c = if p.1 = e then p.2 else ctxAfter e kv c := by
  simp [ctxAfter, List.foldl_append]

theorem ctxAfter_idem (e : String) (kv : List (String × String)) (c : String) :
    ctxAfter e kv (ctxAfter e kv c) = ctxAfter e kv c := by
  induction kv using List.reverseRecOn with
  | nil => rfl
  | append_singleton l p ih =>
    rw [ctxAfter_snoc, ctxAfter_snoc]
    by_cases h : p.1 = e
    · simp [h]
    · simp only [h, if_false]
      -- ctxAfter e l (ctxAfter e (l ++ [p]) c) with the snoc not matching
      exact ih

theorem ctxAfter_append (e : String) (k1 k2 : List (String × String)) (c : String) :
    ctxAfter e (k1 ++ k2) c = ctxAfter e k2 (ctxAfter e k1 c) := by
  simp [ctxAfter, List.foldl_append]

theorem ctxAfter_append_idem (e : String) (k1 k2 : List (String × String)) (c : String) :
    ctxAfter e (k1 ++ k2) (ctxAfter e k1 c) = ctxAfter e (k1 ++ k2) c := by
  rw [ctxAfter_append, ctxAfter_idem, ← ctxAfter_append]

/-! ## Reconciling twice -/

theorem processEpc_key (cfg : AppConfig) (d : String → String × String)
    (wl : String → List String → Bool) (db : List Tag) (asn : AdvanceShippingNotice)
    (item : ASNInputItem) (acc : Acc) (e : String) :
    (processEpc cfg (MapStore.env d wl) db asn item acc e).tagData.map tagKey =
      acc.tagData.map tagKey ++
        (if passesFilter cfg wl e then [(e, Json.marshalASNContext (asnContextOf asn item))]
         else []) := by
  by_cases hp : passesFilter cfg wl e = true
  · have hp' : cfg.EpcFilters = [] ∨
        (MapStore.env d wl).IsTagWhitelisted e cfg.EpcFilters = true := by
      simp only [passesFilter, Bool.not_eq_true', Bool.and_eq_false_iff, decide_eq_false_iff_not,
        Bool.not_eq_false'] at hp
      rcases hp with h | h
      · left
        exact List.length_eq_zero.mp (by omega)
      · right
        exact h
    rw [processEpc_pass cfg _ db asn item acc e hp', if_pos hp]
    have hfind : (MapStore.env d wl).FindByEpc db e = Except.ok (MapStore.FindByEpc db e) := rfl
    rw [hfind]
    dsimp only
    split_ifs with hE
    · simp [tagKey, tempTagOf]
    · have hepc : (MapStore.FindByEpc db e).Epc = e := by
        rcases MapStore.find_epc db e with h | h
        · exact h
        · rw [h] at hE
          exact absurd (by decide : Tag.zero.IsEmpty = true) hE
      simp [tagKey, hepc]
  · have hp2 : passesFilter cfg wl e = false := by simpa using hp
    simp only [passesFilter, Bool.not_eq_false', Bool.and_eq_true, decide_eq_true_eq,
      Bool.not_eq_true'] at hp2
    rw [processEpc_filtered cfg _ db asn item acc e
      (fun h => by rw [h] at hp2; simp at hp2) hp2.2]
    simp [hp]

theorem processItem_key (cfg : AppConfig) (d : String → String × String)
    (wl : String → List String → Bool) (db : List Tag) (asn : AdvanceShippingNotice)
    (acc : Acc) (item : ASNInputItem) :
    (processItem cfg (MapStore.env d wl) db asn acc item).tagData.map tagKey =
      acc.tagData.map tagKey ++ occsItem cfg wl asn item := by
  unfold processItem occsItem
  generalize sliceElems item.EPCs = epcs
  induction epcs generalizing acc with
  | nil => simp
  | cons e es ih =>
    rw [List.foldl_cons, ih, processEpc_key]
    by_cases hp : passesFilter cfg wl e = true
    · simp [hp, List.filter_cons]
    · simp [hp, List.filter_cons]

theorem processItems_key (cfg : AppConfig) (d : String → String × String)
    (wl : String → List String → Bool) (db : List Tag) (asn : AdvanceShippingNotice)
    (acc : Acc) :
    (processItems cfg (MapStore.env d wl) db asn acc).tagData.map tagKey =
      acc.tagData.map tagKey ++ occsASN cfg wl asn := by
  unfold processItems occsASN
  generalize sliceElems asn.Items = items
  induction items generalizing acc with
  | nil => simp
  | cons i is ih => rw [List.foldl_cons, ih, processItem_key, List.flatMap_cons, List.append_assoc]

theorem processASNs_map_err (cfg : AppConfig) (d : String → String × String)
    (wl : String → List String → Bool) (asns : List AdvanceShippingNotice)
    (db : List Tag) (acc : Acc) :
    (processASNs cfg (MapStore.env d wl) asns db acc).err = none ↔
      ∀ asn ∈ asns, asnMissingData asn = false := by
  induction asns generalizing db acc with
  | nil => simp [processASNs]
  | cons a rest ih =>
    rw [processASNs]
    by_cases ha : asnMissingData a = true
    · simp [ha]
    · have ha' : asnMissingData a = false := by simpa using ha
      simp only [ha', Bool.false_eq_true, if_false, List.mem_cons, forall_eq_or_imp, true_and]
      split_ifs
      · show (processASNs cfg (MapStore.env d wl) rest _ _).err = none ↔ _
        exact ih _ _
      · exact ih _ _

theorem processASNs_map_ctx (cfg : AppConfig) (d : String → String × String)
    (wl : String → List String → Bool) (asns : List AdvanceShippingNotice)
    (db : List Tag) (acc : Acc) (base : String → String)
    (hinv : ∀ e, (MapStore.FindByEpc db e).EpcContext =
      ctxAfter e (acc.tagData.map tagKey) (base e))
    (hok : (processASNs cfg (MapStore.env d wl) asns db acc).err = none) :
    ∀ e, (MapStore.FindByEpc (processASNs cfg (MapStore.env d wl) asns db acc).db e).EpcContext =
      ctxAfter e (acc.tagData.map tagKey ++ occs cfg wl asns) (base e) := by
  induction asns generalizing db acc with
  | nil =>
    intro e
    simpa [processASNs, occs] using hinv e
  | cons a rest ih =>
    have hall := (processASNs_map_err cfg d wl (a :: rest) db acc).mp hok
    have ha : asnMissingData a = false := hall a (List.mem_cons_self _ _)
    rw [processASNs] at hok ⊢
    simp only [ha, Bool.false_eq_true, if_false] at hok ⊢
    have hkey := processItems_key cfg d wl db a acc
    have hocc : occs cfg wl (a :: rest) = occsASN cfg wl a ++ occs cfg wl rest := by
      simp [occs]
    rw [hocc, ← List.append_assoc, ← hkey]
    split_ifs at hok ⊢ with hlen
    · have hrep : (MapStore.env d wl).Replace db (processItems cfg (MapStore.env d wl) db a acc).tagData
          = (MapStore.Replace db (processItems cfg (MapStore.env d wl) db a acc).tagData, none) := rfl
      rw [hrep] at hok ⊢
      dsimp only at hok ⊢
      apply ih _ _ _ hok
      intro e
      rw [MapStore.find_Replace_ctx, hinv e, hkey, ctxAfter_append_idem]
    · apply ih _ _ _ hok
      intro e
      have hnil : (processItems cfg (MapStore.env d wl) db a acc).tagData = [] := by
        apply List.eq_nil_of_length_eq_zero
        omega
      have hk2 := hkey
      rw [hnil] at hk2
      simp only [List.map_nil] at hk2
      have hacc : acc.tagData.map tagKey = [] := by
        have hl := congrArg List.length hk2
        simp only [List.length_nil, List.length_append, List.length_map] at hl
        exact List.eq_nil_of_length_eq_zero (by rw [List.length_map]; omega)
      rw [hnil, List.map_nil, hinv e, hacc]

/-- C7: over the table store, when `processShippingNotice` succeeds on a payload, a
second run on the same payload succeeds too and leaves under every EPC the `EpcContext`
the first run left there. -/
theorem reconcile_twice_keeps_context (cfg : AppConfig) (d : String → String × String)
    (wl : String → List String → Bool) (store : List Tag)
    (asns : List AdvanceShippingNotice)
    (hok : (processShippingNotice cfg (MapStore.env d wl) (Except.ok asns) store).err = none) :
    (processShippingNotice cfg (MapStore.env d wl) (Except.ok asns)
        (processShippingNotice cfg (MapStore.env d wl) (Except.ok asns) store).db).err = none ∧
    ∀ epc : String,
      (MapStore.FindByEpc
        (processShippingNotice cfg (MapStore.env d wl) (Except.ok asns)
          (processShippingNotice cfg (MapStore.env d wl) (Except.ok asns) store).db).db
        epc).EpcContext =
      (MapStore.FindByEpc
        (processShippingNotice cfg (MapStore.env d wl) (Except.ok asns) store).db
        epc).EpcContext := by
  have hunf : ∀ s : List Tag,
      processShippingNotice cfg (MapStore.env d wl) (Except.ok asns) s =
        processASNs cfg (MapStore.env d wl) asns s ⟨[], []⟩ := fun _ => rfl
  simp only [hunf] at hok ⊢
  have hvalid := (processASNs_map_err cfg d wl asns store ⟨[], []⟩).mp hok
  have hok2 : (processASNs cfg (MapStore.env d wl) asns
      (processASNs cfg (MapStore.env d wl) asns store ⟨[], []⟩).db ⟨[], []⟩).err = none :=
    (processASNs_map_err cfg d wl asns _ ⟨[], []⟩).mpr hvalid
  refine ⟨hok2, fun epc => ?_⟩
  have h1 := processASNs_map_ctx cfg d wl asns store ⟨[], []⟩
    (fun e => (MapStore.FindByEpc store e).EpcContext) (fun e => rfl) hok epc
  have h2 := processASNs_map_ctx cfg d wl asns
    (processASNs cfg (MapStore.env d wl) asns store ⟨[], []⟩).db ⟨[], []⟩
    (fun e => (MapStore.FindByEpc
      (processASNs cfg (MapStore.env d wl) asns store ⟨[], []⟩).db e).EpcContext)
    (fun e => rfl) hok2 epc
  simp only [List.map_nil, List.nil_append] at h1 h2
  rw [h2, h1, ctxAfter_idem]

/-- C7 at a store holding a sensor-read `E9` and a payload of two notices that both
name `E9`. -/
theorem reconcile_twice_keeps_context_witness :
    (processShippingNotice exampleConfig
        (MapStore.env (fun _ => ("", "")) (fun _ _ => true))
        (Except.ok [exampleASN, { exampleASN with ID := "A2" }]) [sensorTag]).err = none ∧
    ((processShippingNotice exampleConfig
        (MapStore.env (fun _ => ("", "")) (fun _ _ => true))
        (Except.ok [exampleASN, { exampleASN with ID := "A2" }])
        (processShippingNotice exampleConfig
          (MapStore.env (fun _ => ("", "")) (fun _ _ => true))
          (Except.ok [exampleASN, { exampleASN with ID := "A2" }]) [sensorTag]).db).err = none ∧
    ∀ epc : String,
      (MapStore.FindByEpc
        (processShippingNotice exampleConfig
          (MapStore.env (fun _ => ("", "")) (fun _ _ => true))
          (Except.ok [exampleASN, { exampleASN with ID := "A2" }])
          (processShippingNotice exampleConfig
            (MapStore.env (fun _ => ("", "")) (fun _ _ => true))
            (Except.ok [exampleASN, { exampleASN with ID := "A2" }]) [sensorTag]).db).db
        epc).EpcContext =
      (MapStore.FindByEpc
        (processShippingNotice exampleConfig
          (MapStore.env (fun _ => ("", "")) (fun _ _ => true))
          (Except.ok [exampleASN, { exampleASN with ID := "A2" }]) [sensorTag]).db
        epc).EpcContext) :=
  ⟨by decide,
    reconcile_twice_keeps_context exampleConfig (fun _ => ("", "")) (fun _ _ => true)
      [sensorTag] [exampleASN, { exampleASN with ID := "A2" }] (by decide)⟩

/-! ## Tag equality and the zero tag -/

/-- C11: the zero-value tag is empty and is not read by the RSP controller. -/
theorem zero_tag_is_empty_not_read (cfg : AppConfig) :
    Tag.zero.IsEmpty = true ∧ Tag.zero.IsTagReadByRspController cfg = false := by
  have h : Tag.zero.IsEmpty = true := by decide
  exact ⟨h, by simp [Tag.IsTagReadByRspController, h]⟩

/-- C12: a tag with a non-empty `Epc` and an empty `EpcContext` is read by the RSP
controller. -/
theorem tag_with_epc_without_context_is_read (cfg : AppConfig) (t : Tag) (hepc : t.Epc ≠ "") (hctx : t.EpcContext = "") :
    t.IsTagReadByRspController cfg = true := by
  have he : t.IsEmpty = false := by
    cases hE : t.IsEmpty with
    | false => rfl
    | true =>
      exfalso
      simp only [Tag.IsEmpty, Bool.and_eq_true, beq_iff_eq] at hE
      exact hepc hE.1.1.1.1.1.1.1.1.1.1.1.1.1.1.1.2
  have hs : t.IsShippingNoticeEntry cfg = false := by
    unfold Tag.IsShippingNoticeEntry
    rw [if_pos (Or.inl hctx)]
  simp [Tag.IsTagReadByRspController, he, hs]

/-- C12 at a tag with only `Epc` set and at a tag read by a fixed sensor. -/
theorem tag_with_epc_without_context_is_read_witness :
    ({ Tag.zero with Epc := "E9" } : Tag).Epc ≠ "" ∧
    ({ Tag.zero with Epc := "E9" } : Tag).EpcContext = "" ∧
    sensorTag.Epc ≠ "" ∧ sensorTag.EpcContext = "" ∧
    ({ Tag.zero with Epc := "E9" } : Tag).IsTagReadByRspController exampleConfig = true ∧
    sensorTag.IsTagReadByRspController exampleConfig = true :=
  ⟨by decide, rfl, by decide, rfl,
    tag_with_epc_without_context_is_read exampleConfig { Tag.zero with Epc := "E9" } (by decide) rfl,
    tag_with_epc_without_context_is_read exampleConfig sensorTag (by decide) rfl⟩

/-- Two tags are equal for `IsEqual` exactly when they agree on the fourteen fields it
compares; `FilterValue`, `Confidence` and `CycleCount` are not among them. -/
theorem isEqual_iff (a b : Tag) :
    a.IsEqual b = true ↔
      (a.URI = b.URI ∧ a.Epc = b.Epc ∧ a.EpcEncodeFormat = b.EpcEncodeFormat ∧
        a.Event = b.Event ∧ a.FacilityID = b.FacilityID ∧ a.Tid = b.Tid ∧
        a.Arrived = b.Arrived ∧ a.LastRead = b.LastRead ∧ a.Source = b.Source ∧
        a.LocationHistory = b.LocationHistory ∧ a.QualifiedState = b.QualifiedState ∧
        a.EpcState = b.EpcState ∧ a.EpcContext = b.EpcContext ∧ a.ProductID = b.ProductID) := by
  unfold Tag.IsEqual
  split_ifs with h
  · simp [h]
  · simp [h]

/-- C13, at the failing input: two tags that differ in `FilterValue` are equal for
`IsEqual`, which leaves that field out of the comparison. -/
theorem isEqual_ignores_filter_value :
    pallet.IsEqual carton = true ∧ pallet.FilterValue ≠ carton.FilterValue := by
  decide

/-- C14: two tags that agree on every field other than `Confidence` and `CycleCount`
are equal for `IsEqual`. -/
theorem isEqual_of_same_persisted_fields (a b : Tag)
    (h : a.URI = b.URI ∧ a.Epc = b.Epc ∧ a.ProductID = b.ProductID ∧
      a.FilterValue = b.FilterValue ∧ a.Tid = b.Tid ∧ a.EpcEncodeFormat = b.EpcEncodeFormat ∧
      a.FacilityID = b.FacilityID ∧ a.Event = b.Event ∧ a.Arrived = b.Arrived ∧
      a.LastRead = b.LastRead ∧ a.Source = b.Source ∧ a.LocationHistory = b.LocationHistory ∧
      a.EpcState = b.EpcState ∧ a.QualifiedState = b.QualifiedState ∧
      a.EpcContext = b.EpcContext) :
    a.IsEqual b = true := by
  obtain ⟨h1, h2, h3, _, h5, h6, h7, h8, h9, h10, h11, h12, h13, h14, h15⟩ := h
  unfold Tag.IsEqual
  rw [if_pos ⟨h1, h2, h6, h8, h7, h5, h9, h10, h11, h12, h14, h13, h15, h3⟩]

/-- C14 at a sensor-read tag and its copy with another confidence and cycle-count flag. -/
theorem isEqual_of_same_persisted_fields_witness :
    sensorTag.IsEqual { sensorTag with Confidence := ⟨4607182418800017408⟩, CycleCount := true }
      = true :=
  isEqual_of_same_persisted_fields sensorTag
    { sensorTag with Confidence := ⟨4607182418800017408⟩, CycleCount := true }
    ⟨rfl, rfl, rfl, rfl, rfl, rfl, rfl, rfl, rfl, rfl, rfl, rfl, rfl, rfl, rfl⟩

/-- C15: a scheduler run-state notification with an empty `run_state` is rejected with
the error `missing run_state parameter`, whatever the embedded notification. -/
theorem validate_rejects_missing_run_state {N : Type} (validateNotification : N → Option String)
    (notif : SchedulerRunState N) (h : notif.Params.RunState = "") :
    notif.Validate validateNotification = some "missing run_state parameter" ∧
    notif.Validate validateNotification ≠ none := by
  unfold SchedulerRunState.Validate
  rw [if_pos h]
  exact ⟨rfl, by simp⟩

/-- C15 at a notification without run state whose embedded notification is valid. -/
theorem validate_rejects_missing_run_state_witness :
    stoppedNotification.Params.RunState = "" ∧
    stoppedNotification.Validate (fun _ => none) = some "missing run_state parameter" ∧
    stoppedNotification.Validate (fun _ => none) ≠ none :=
  ⟨rfl, validate_rejects_missing_run_state (fun _ => none) stoppedNotification rfl⟩

/-! ## Rounding to `float64` -/

theorem roundHalfEven_intCast (k : Int) : roundHalfEven (k : ℚ) = k := by
  unfold roundHalfEven
  simp

theorem round_of_multiple (q : ℚ) (k : Int) (hq : q = k * 2 ^ F64.ulpExp q)
    (hlt : |q| < 2 ^ 1024) : F64.round q = F64.fin q := by
  unfold F64.round
  by_cases h0 : q = 0
  · simp [h0]
  · rw [if_neg h0]
    have hu : (2 : ℚ) ^ F64.ulpExp q ≠ 0 := zpow_ne_zero _ (by norm_num)
    have hdiv : q / 2 ^ F64.ulpExp q = (k : ℚ) := by
      rw [div_eq_iff hu]
      exact hq
    rw [hdiv, roundHalfEven_intCast, ← hq, if_neg (not_le.mpr hlt)]

theorem abs_cast_le_of_natAbs_le (z : Int) (B : Nat) (hb : z.natAbs ≤ B) :
    |(z : ℚ)| ≤ (B : ℚ) := by
  have : |z| ≤ (B : Int) := by
    rw [← Int.natCast_natAbs]
    exact_mod_cast hb
  exact_mod_cast this

theorem log_natAbs_bounds (z : Int) (hz : z ≠ 0) (hb : z.natAbs ≤ 2 ^ 53) :
    0 ≤ Int.log 2 |(z : ℚ)| ∧ Int.log 2 |(z : ℚ)| ≤ 53 := by
  have hpos : (0 : ℚ) < |(z : ℚ)| := abs_pos.mpr (by exact_mod_cast hz)
  have h1 : (1 : ℚ) ≤ |(z : ℚ)| := by
    have : (1 : Int) ≤ |z| := Int.one_le_abs hz
    exact_mod_cast this
  have h2 : |(z : ℚ)| ≤ 2 ^ 53 := by
    have := abs_cast_le_of_natAbs_le z (2 ^ 53) hb
    simpa using this
  constructor
  · rw [← Int.zpow_le_iff_le_log (by norm_num) hpos]
    simpa using h1
  · have : Int.log 2 |(z : ℚ)| < 54 := by
      rw [← Int.lt_zpow_iff_log_lt (by norm_num) hpos]
      calc |(z : ℚ)| ≤ 2 ^ 53 := h2
        _ < ((2 : ℕ) : ℚ) ^ (54 : ℤ) := by norm_num
    omega

theorem round_intCast (z : Int) (hb : z.natAbs ≤ 2 ^ 53) : F64.round (z : ℚ) = F64.fin z := by
  by_cases hz : z = 0
  · subst hz
    simp [F64.round]
  obtain ⟨hlo, hhi⟩ := log_natAbs_bounds z hz hb
  have hpos : (0 : ℚ) < |(z : ℚ)| := abs_pos.mpr (by exact_mod_cast hz)
  have habs : |(z : ℚ)| ≤ 2 ^ 53 := by
    have := abs_cast_le_of_natAbs_le z (2 ^ 53) hb
    simpa using this
  have hlt : |(z : ℚ)| < 2 ^ 1024 := lt_of_le_of_lt habs (by norm_num)
  have hue : F64.ulpExp (z : ℚ) = Int.log 2 |(z : ℚ)| - 52 := by
    unfold F64.ulpExp
    rw [max_eq_left (by omega)]
  rcases Nat.lt_or_ge 52 (Int.log 2 |(z : ℚ)|).toNat with h53 | h52
  · have he : Int.log 2 |(z : ℚ)| = 53 := by omega
    have hge : (2 : ℚ) ^ 53 ≤ |(z : ℚ)| := by
      have := (Int.zpow_le_iff_le_log (R := ℚ) (b := 2) (by norm_num) hpos
        (x := 53)).mpr (by omega)
      have h2 : ((2 : ℕ) : ℚ) ^ (53 : ℤ) = 2 ^ 53 := by norm_num
      rw [h2] at this
      exact this
    have heq : |(z : ℚ)| = 2 ^ 53 := le_antisymm habs hge
    have hu : F64.ulpExp (z : ℚ) = 1 := by rw [hue, he]; rfl
    rcases abs_eq (by norm_num : (0 : ℚ) ≤ 2 ^ 53) |>.mp heq with h | h
    · refine round_of_multiple _ (2 ^ 52) ?_ hlt
      rw [hu, h]
      norm_num
    · refine round_of_multiple _ (-2 ^ 52) ?_ hlt
      rw [hu, h]
      norm_num
  · obtain ⟨n, hn⟩ : ∃ n : Nat, (52 : Int) - Int.log 2 |(z : ℚ)| = n :=
      ⟨(52 - Int.log 2 |(z : ℚ)|).toNat, by omega⟩
    have hu : F64.ulpExp (z : ℚ) = -(n : Int) := by rw [hue]; omega
    refine round_of_multiple _ (z * 2 ^ n) ?_ hlt
    rw [hu, zpow_neg, zpow_natCast]
    push_cast
    field_simp

theorem ofInt_of_natAbs_le (z : Int) (hb : z.natAbs ≤ 2 ^ 53) : F64.ofInt z = F64.fin z :=
  round_intCast z hb

theorem foldl_add_exact (vals : List F64) (B : Nat) (a : Int)
    (h : ∀ v ∈ vals, ∃ z : Int, v = F64.fin z ∧ z.natAbs ≤ B)
    (hb : a.natAbs + vals.length * B ≤ 2 ^ 53) :
    ∃ s : Int, vals.foldl F64.add (F64.fin a) = F64.fin s ∧
      (s : ℚ) = a + (vals.map F64.toRat).sum ∧ s.natAbs ≤ a.natAbs + vals.length * B := by
  induction vals generalizing a with
  | nil => exact ⟨a, rfl, by simp, by simp⟩
  | cons v vs ih =>
    obtain ⟨z, hv, hz⟩ := h v (List.mem_cons_self _ _)
    simp only [List.length_cons] at hb
    have hsum : (a + z).natAbs ≤ a.natAbs + B := le_trans (Int.natAbs_add_le a z) (by omega)
    have hmul : (vs.length + 1) * B = vs.length * B + B := by ring
    have hstep : F64.add (F64.fin a) v = F64.fin ((a + z : Int) : ℚ) := by
      rw [hv]
      show F64.round ((a : ℚ) + (z : ℚ)) = _
      rw [← Int.cast_add]
      exact round_intCast (a + z) (by omega)
    obtain ⟨s, hs1, hs2, hs3⟩ := ih (a + z)
      (fun w hw => h w (List.mem_cons_of_mem _ hw)) (by omega)
    refine ⟨s, ?_, ?_, ?_⟩
    · rw [List.foldl_cons, hstep]
      exact hs1
    · rw [hs2, hv]
      simp only [List.map_cons, List.sum_cons, F64.toRat]
      push_cast
      ring
    · simp only [List.length_cons]
      omega

/-! ## The RSSI window -/

theorem addAll_snoc (b : CircularBuffer) (S : List F64) (v : F64) :
    b.addAll (S ++ [v]) = (b.addAll S).addValue v := by
  simp [CircularBuffer.addAll, List.foldl_append]

theorem addAll_shape (W : Nat) (S : List F64) :
    ((NewCircularBuffer W).addAll S).windowSize = W ∧
    ((NewCircularBuffer W).addAll S).counter = S.length ∧
    ((NewCircularBuffer W).addAll S).values.length = W := by
  induction S using List.reverseRecOn with
  | nil => simp [CircularBuffer.addAll, NewCircularBuffer]
  | append_singleton S v ih =>
    obtain ⟨h1, h2, h3⟩ := ih
    rw [addAll_snoc]
    simp [CircularBuffer.addValue, h1, h2, h3]

theorem set_perm (l : List F64) (p : Nat) (x v : F64) (h : l[p]? = some x) :
    ∃ r, l.Perm (x :: r) ∧ (l.set p v).Perm (v :: r) := by
  induction l generalizing p with
  | nil => simp at h
  | cons a l ih =>
    cases p with
    | zero =>
      simp at h
      subst h
      exact ⟨l, List.Perm.refl _, List.Perm.refl _⟩
    | succ p =>
      simp at h
      obtain ⟨r, h1, h2⟩ := ih p h
      refine ⟨a :: r, ?_, ?_⟩
      · exact (List.Perm.cons a h1).trans (List.Perm.swap x a r)
      · simp only [List.set_cons_succ]
        exact (List.Perm.cons a h2).trans (List.Perm.swap v a r)

theorem take_set_self (l : List F64) (n : Nat) (v : F64) : (l.set n v).take n = l.take n := by
  induction l generalizing n with
  | nil => simp
  | cons a l ih =>
    cases n with
    | zero => simp
    | succ n => simp [ih n]

theorem mod_ne_of_lt_window (W j k : Nat) (hjk : j < k) (hk : k < j + W) :
    j % W ≠ k % W := by
  intro h
  have hm : j ≡ k [MOD W] := h
  have hd : W ∣ k - j := (Nat.modEq_iff_dvd' hjk.le).mp hm
  have := Nat.le_of_dvd (by omega) hd
  omega

theorem addAll_slots (W : Nat) (S : List F64) :
    ∀ j, j < S.length → S.length ≤ j + W →
      ((NewCircularBuffer W).addAll S).values[j % W]? = S[j]? := by
  induction S using List.reverseRecOn with
  | nil => intro j hj; simp at hj
  | append_singleton S v ih =>
    intro j hj hw
    obtain ⟨h1, h2, h3⟩ := addAll_shape W S
    have hW : 0 < W := by
      simp only [List.length_append, List.length_singleton] at hj hw
      omega
    rw [addAll_snoc]
    simp only [CircularBuffer.addValue, h1, h2]
    simp only [List.length_append, List.length_singleton] at hj hw
    by_cases hjk : j = S.length
    · subst hjk
      rw [List.getElem?_set_self (by rw [h3]; exact Nat.mod_lt _ hW)]
      simp
    · have hlt : j < S.length := by omega
      rw [List.getElem?_set_ne (fun h => mod_ne_of_lt_window W j S.length hlt (by omega) h.symm),
        ih j hlt (by omega), List.getElem?_append_left hlt]

theorem addAll_perm (W : Nat) (S : List F64) :
    (((NewCircularBuffer W).addAll S).values.take (min S.length W)).Perm
      (S.drop (S.length - min S.length W)) := by
  induction S using List.reverseRecOn with
  | nil => simp
  | append_singleton S v ih =>
    obtain ⟨h1, h2, h3⟩ := addAll_shape W S
    rw [addAll_snoc]
    simp only [CircularBuffer.addValue, h1, h2, List.length_append, List.length_singleton]
    by_cases hk : S.length < W
    · have e1 : min (S.length + 1) W = S.length + 1 := by omega
      have e2 : min S.length W = S.length := by omega
      rw [e1, Nat.sub_self, List.drop_zero, Nat.mod_eq_of_lt hk, List.take_succ,
        List.getElem?_set_self (by omega), take_set_self]
      rw [e2, Nat.sub_self, List.drop_zero] at ih
      simp only [Option.toList_some]
      exact List.Perm.append_right [v] ih
    · have hWk : W ≤ S.length := by omega
      by_cases hW : W = 0
      · subst hW
        simp
      · have e1 : min (S.length + 1) W = W := by omega
        have e2 : min S.length W = W := by omega
        rw [e2] at ih
        rw [e1]
        have hslot := addAll_slots W S (S.length - W) (by omega) (by omega)
        have hmod : (S.length - W) % W = S.length % W := by
          conv_rhs => rw [show S.length = (S.length - W) + W by omega]
          rw [Nat.add_mod_right]
        rw [hmod] at hslot
        have hb : S.length - W < S.length := by omega
        have hget : S[S.length - W]? = some S[S.length - W] :=
          List.getElem?_eq_getElem hb
        rw [hget] at hslot
        have htake : ∀ l : List F64, l.length = W → l.take W = l := fun l hl => by
          rw [← hl, List.take_length]
        rw [htake _ h3] at ih
        rw [htake _ (by rw [List.length_set, h3])]
        have hd1 : S.drop (S.length - W) = S[S.length - W] :: S.drop (S.length - W + 1) :=
          List.drop_eq_getElem_cons hb
        have hd2 : (S ++ [v]).drop (S.length + 1 - W) = S.drop (S.length - W + 1) ++ [v] := by
          rw [show S.length + 1 - W = S.length - W + 1 by omega, List.drop_append_of_le_length
            (by omega)]
        obtain ⟨r, hr1, hr2⟩ := set_perm _ (S.length % W) _ v hslot
        rw [hd1] at ih
        have hr : r.Perm (S.drop (S.length - W + 1)) :=
          List.Perm.cons_inv (hr1.symm.trans ih)
        rw [hd2]
        exact hr2.trans ((List.Perm.cons v hr).trans (List.perm_append_singleton v _).symm)

theorem getMean_of_int_samples (W : Nat) (hW : 1 ≤ W) (hW53 : W ≤ 2 ^ 53) (S : List Int)
    (hS : S ≠ []) (hb : ∀ z ∈ S, z.natAbs * W ≤ 2 ^ 53) :
    ∃ s : Int,
      ((NewCircularBuffer W).addAll (S.map F64.ofInt)).getMean =
        F64.round ((s : ℚ) / ((min S.length W : Nat) : ℚ)) ∧
      (s : ℚ) = ((S.drop (S.length - min S.length W)).map (fun z : Int => (z : ℚ))).sum ∧
      s.natAbs ≤ 2 ^ 53 := by
  obtain ⟨h1, h2, _⟩ := addAll_shape W (S.map F64.ofInt)
  have hlen : 0 < S.length := List.length_pos.mpr hS
  have hmin : min S.length W ≠ 0 := by omega
  have hN : ((NewCircularBuffer W).addAll (S.map F64.ofInt)).getN = min S.length W := by
    simp [CircularBuffer.getN, h1, h2]
  have hperm := addAll_perm W (S.map F64.ofInt)
  simp only [List.length_map] at hperm
  have hsmall : ∀ z ∈ S, z.natAbs ≤ 2 ^ 53 / W := fun z hz =>
    (Nat.le_div_iff_mul_le (by omega)).mpr (hb z hz)
  have hof : ∀ z ∈ S, F64.ofInt z = F64.fin z := fun z hz =>
    ofInt_of_natAbs_le z (le_trans (hsmall z hz) (Nat.div_le_self _ _))
  have hvals : ∀ v ∈ ((NewCircularBuffer W).addAll (S.map F64.ofInt)).values.take
      (min S.length W), ∃ z : Int, v = F64.fin z ∧ z.natAbs ≤ 2 ^ 53 / W := by
    intro v hv
    have hv2 := List.mem_of_mem_drop (hperm.mem_iff.mp hv)
    obtain ⟨z, hz, rfl⟩ := List.mem_map.mp hv2
    exact ⟨z, hof z hz, hsmall z hz⟩
  have hcount : (((NewCircularBuffer W).addAll (S.map F64.ofInt)).values.take
      (min S.length W)).length ≤ W := by
    rw [List.length_take]
    omega
  have hbound : (0 : Int).natAbs + (((NewCircularBuffer W).addAll (S.map F64.ofInt)).values.take
      (min S.length W)).length * (2 ^ 53 / W) ≤ 2 ^ 53 := by
    simp only [Int.natAbs_zero, Nat.zero_add]
    calc _ ≤ W * (2 ^ 53 / W) := Nat.mul_le_mul_right _ hcount
      _ ≤ 2 ^ 53 := Nat.mul_div_le _ _
  obtain ⟨s, hs1, hs2, hs3⟩ := foldl_add_exact _ (2 ^ 53 / W) 0 hvals hbound
  have hsum : (s : ℚ) =
      ((S.drop (S.length - min S.length W)).map (fun z : Int => (z : ℚ))).sum := by
    rw [hs2, (hperm.map F64.toRat).sum_eq, ← List.map_drop, List.map_map]
    simp only [Int.cast_zero, zero_add]
    congr 1
    apply List.map_congr_left
    intro z hz
    simp only [Function.comp, hof z (List.mem_of_mem_drop hz), F64.toRat]
  refine ⟨s, ?_, hsum, le_trans hs3 hbound⟩
  unfold CircularBuffer.getMean
  rw [hN, if_neg hmin]
  have h0 : (F64.fin 0 : F64) = F64.fin ((0 : Int) : ℚ) := by simp
  rw [h0, hs1, ofInt_of_natAbs_le _ (by
    simp only [Int.natAbs_ofNat]
    omega)]
  have hne : (((min S.length W : Nat) : Int) : ℚ) ≠ 0 := by
    exact_mod_cast hmin
  simp only [F64.div, if_neg hne]
  norm_cast

/-- C16: for a window of size `W ≥ 1`, the count is 0 before any add, at most `W` after
every add, `min(|S|, W)` after the samples `S`, hence `W` once `|S| ≥ W`. -/
theorem buffer_count_is_min (W : Nat) (_hW : 1 ≤ W) (S : List F64) :
    (NewCircularBuffer W).getN = 0 ∧
    (∀ n, ((NewCircularBuffer W).addAll (S.take n)).getN ≤ W) ∧
    ((NewCircularBuffer W).addAll S).getN = min S.length W ∧
    (W ≤ S.length → ((NewCircularBuffer W).addAll S).getN = W) := by
  have hN : ∀ T : List F64, ((NewCircularBuffer W).addAll T).getN = min T.length W := by
    intro T
    obtain ⟨h1, h2, _⟩ := addAll_shape W T
    simp [CircularBuffer.getN, h1, h2]
  refine ⟨by simp [CircularBuffer.getN, NewCircularBuffer], ?_, hN S, ?_⟩
  · intro n
    rw [hN]
    exact Nat.min_le_right _ _
  · intro h
    rw [hN]
    exact Nat.min_eq_right h

/-- C16 at a window of five and seven samples. -/
theorem buffer_count_is_min_witness :
    1 ≤ 5 ∧
    ((NewCircularBuffer 5).getN = 0 ∧
    (∀ n, ((NewCircularBuffer 5).addAll ((List.map F64.ofInt [0, 1, 2, 3, 4, 0, 1]).take n)).getN ≤ 5) ∧
    ((NewCircularBuffer 5).addAll (List.map F64.ofInt [0, 1, 2, 3, 4, 0, 1])).getN =
      min (List.map F64.ofInt [0, 1, 2, 3, 4, 0, 1]).length 5 ∧
    (5 ≤ (List.map F64.ofInt [0, 1, 2, 3, 4, 0, 1]).length →
      ((NewCircularBuffer 5).addAll (List.map F64.ofInt [0, 1, 2, 3, 4, 0, 1])).getN = 5)) :=
  ⟨by decide, buffer_count_is_min 5 (by decide) (List.map F64.ofInt [0, 1, 2, 3, 4, 0, 1])⟩

/-! ## The mean of the window in `float64` arithmetic -/

theorem log_eq_of_bounds (q : ℚ) (e : Int) (h1 : (2 : ℚ) ^ e ≤ |q|) (h2 : |q| < (2 : ℚ) ^ (e + 1)) :
    Int.log 2 |q| = e := by
  have hpos : (0 : ℚ) < |q| := lt_of_lt_of_le (zpow_pos (by norm_num) e) h1
  have ha : e ≤ Int.log 2 |q| := by
    rw [← Int.zpow_le_iff_le_log (by norm_num) hpos]
    exact_mod_cast h1
  have hb : Int.log 2 |q| < e + 1 := by
    rw [← Int.lt_zpow_iff_log_lt (by norm_num) hpos]
    exact_mod_cast h2
  omega

theorem ulpExp_big : F64.ulpExp (10 ^ 16) = 1 ∧ F64.ulpExp (10 ^ 16 + 1) = 1 := by
  have h1 : Int.log 2 |(10 ^ 16 : ℚ)| = 53 :=
    log_eq_of_bounds _ 53 (by norm_num [abs_of_pos]) (by norm_num [abs_of_pos])
  have h2 : Int.log 2 |(10 ^ 16 + 1 : ℚ)| = 53 :=
    log_eq_of_bounds _ 53 (by norm_num [abs_of_pos]) (by norm_num [abs_of_pos])
  unfold F64.ulpExp
  rw [h1, h2]
  decide

theorem round_big : F64.round (10 ^ 16) = F64.fin (10 ^ 16) ∧
    F64.round (10 ^ 16 + 1) = F64.fin (10 ^ 16) := by
  obtain ⟨u1, u2⟩ := ulpExp_big
  constructor
  · refine round_of_multiple _ (5 * 10 ^ 15) ?_ (by norm_num [abs_of_pos])
    rw [u1]
    norm_num
  · have hfloor : ⌊((10 ^ 16 + 1 : ℚ) / 2 ^ (1 : Int))⌋ = 5 * 10 ^ 15 := by
      rw [Int.floor_eq_iff]
      norm_num
    unfold F64.round
    rw [u2]
    have hne : (10 ^ 16 + 1 : ℚ) ≠ 0 := by norm_num
    rw [if_neg hne]
    have hr : roundHalfEven ((10 ^ 16 + 1 : ℚ) / 2 ^ (1 : Int)) = 5 * 10 ^ 15 := by
      unfold roundHalfEven
      rw [hfloor]
      norm_num
    rw [hr]
    norm_num [abs_of_pos]

theorem round_overflow : F64.round (2 ^ 1023) = F64.fin (2 ^ 1023) ∧
    F64.round (2 ^ 1023 + 2 ^ 1023) = F64.inf false := by
  have h1 : Int.log 2 |(2 ^ 1023 : ℚ)| = 1023 :=
    log_eq_of_bounds _ 1023 (by norm_num [abs_of_pos]) (by norm_num [abs_of_pos])
  have h2 : Int.log 2 |(2 ^ 1023 + 2 ^ 1023 : ℚ)| = 1024 :=
    log_eq_of_bounds _ 1024 (by norm_num [abs_of_pos]) (by norm_num [abs_of_pos])
  have u1 : F64.ulpExp (2 ^ 1023) = 971 := by
    unfold F64.ulpExp
    rw [h1]
    decide
  have u2 : F64.ulpExp (2 ^ 1023 + 2 ^ 1023) = 972 := by
    unfold F64.ulpExp
    rw [h2]
    decide
  constructor
  · refine round_of_multiple _ (2 ^ 52) ?_ (by norm_num [abs_of_pos])
    rw [u1]
    norm_num
  · unfold F64.round
    rw [u2]
    have hne : (2 ^ 1023 + 2 ^ 1023 : ℚ) ≠ 0 := by norm_num
    rw [if_neg hne]
    have hq : (2 ^ 1023 + 2 ^ 1023 : ℚ) / 2 ^ (972 : Int) = ((2 ^ 52 : Int) : ℚ) := by norm_num
    rw [hq, roundHalfEven_intCast]
    norm_num [abs_of_pos]

/-- C17, amended: for a window of size `W` from 1 to `2^53` and a non-empty sequence `S`
of integer samples `x` with `|x| * W ≤ 2^53`, the mean of the buffer is the `float64`
nearest to the arithmetic mean of the last `min(|S|, W)` samples of `S`, and is that
mean itself when it is an integer; the mean of an empty buffer is 0. -/
theorem buffer_mean_is_nearest_float (W : Nat) (hW : 1 ≤ W) (hW53 : W ≤ 2 ^ 53) (S : List Int)
    (hS : S ≠ []) (hb : ∀ z ∈ S, z.natAbs * W ≤ 2 ^ 53) :
    ((NewCircularBuffer W).addAll (S.map F64.ofInt)).getMean =
      F64.round (arithmeticMean
        (lastSamples (min S.length W) (S.map (fun z : Int => (z : ℚ))))) ∧
    (∀ m : Int,
      arithmeticMean (lastSamples (min S.length W) (S.map (fun z : Int => (z : ℚ)))) = m →
      ((NewCircularBuffer W).addAll (S.map F64.ofInt)).getMean = F64.fin m) ∧
    (lastSamples (min S.length W) (S.map (fun z : Int => (z : ℚ)))).length = min S.length W ∧
    (NewCircularBuffer W).getMean = F64.fin 0 := by
  obtain ⟨s, hs1, hs2, hs3⟩ := getMean_of_int_samples W hW hW53 S hS hb
  have hlen : 0 < S.length := List.length_pos.mpr hS
  have hmin : min S.length W ≠ 0 := by omega
  have hl : (lastSamples (min S.length W) (S.map (fun z : Int => (z : ℚ)))).length =
      min S.length W := by
    simp only [lastSamples, List.length_drop, List.length_map]
    omega
  have hmean : arithmeticMean (lastSamples (min S.length W) (S.map (fun z : Int => (z : ℚ)))) =
      (s : ℚ) / ((min S.length W : Nat) : ℚ) := by
    unfold arithmeticMean
    rw [hl, hs2]
    simp only [lastSamples, List.length_map, List.map_drop]
  have hround : ((NewCircularBuffer W).addAll (S.map F64.ofInt)).getMean =
      F64.round (arithmeticMean
        (lastSamples (min S.length W) (S.map (fun z : Int => (z : ℚ))))) := by
    rw [hmean]
    exact hs1
  refine ⟨hround, ?_, hl, by simp [CircularBuffer.getMean, CircularBuffer.getN, NewCircularBuffer]⟩
  intro m hm
  rw [hround, hm]
  apply round_intCast
  have hne : ((min S.length W : Nat) : ℚ) ≠ 0 := by exact_mod_cast hmin
  have hsm : s = m * (min S.length W : Nat) := by
    have : (s : ℚ) = (m : ℚ) * ((min S.length W : Nat) : ℚ) := by
      rw [← hm, hmean]
      field_simp
    exact_mod_cast this
  have hna : s.natAbs = m.natAbs * min S.length W := by
    rw [hsm, Int.natAbs_mul, Int.natAbs_ofNat]
  have : m.natAbs ≤ m.natAbs * min S.length W :=
    Nat.le_mul_of_pos_right _ (Nat.pos_of_ne_zero hmin)
  omega

theorem mean_of_test_samples :
    arithmeticMean (lastSamples (min ([5, 5, 5, 5, 5, 5, 5, 5, 6, 100] : List Int).length 3)
      (([5, 5, 5, 5, 5, 5, 5, 5, 6, 100] : List Int).map (fun z : Int => (z : ℚ)))) =
        ((37 : Int) : ℚ) := by
  norm_num [arithmeticMean, lastSamples]

/-- C17, amended, at the window of three of the tests: the mean is that of 5, 6, 100,
which is 37. -/
theorem buffer_mean_is_nearest_float_witness :
    1 ≤ 3 ∧ 3 ≤ 2 ^ 53 ∧ ([5, 5, 5, 5, 5, 5, 5, 5, 6, 100] : List Int) ≠ [] ∧
    (∀ z ∈ ([5, 5, 5, 5, 5, 5, 5, 5, 6, 100] : List Int), z.natAbs * 3 ≤ 2 ^ 53) ∧
    arithmeticMean (lastSamples (min ([5, 5, 5, 5, 5, 5, 5, 5, 6, 100] : List Int).length 3)
      (([5, 5, 5, 5, 5, 5, 5, 5, 6, 100] : List Int).map (fun z : Int => (z : ℚ)))) =
        ((37 : Int) : ℚ) ∧
    ((NewCircularBuffer 3).addAll
      (([5, 5, 5, 5, 5, 5, 5, 5, 6, 100] : List Int).map F64.ofInt)).getMean =
        F64.fin ((37 : Int) : ℚ) :=
  ⟨by decide, by norm_num, by simp, by simp, mean_of_test_samples,
    (buffer_mean_is_nearest_float 3 (by decide) (by norm_num) [5, 5, 5, 5, 5, 5, 5, 5, 6, 100]
      (by simp) (by simp)).2.1 37 mean_of_test_samples⟩

theorem add_fin_fin (a b : ℚ) : F64.add (F64.fin a) (F64.fin b) = F64.round (a + b) := rfl

theorem sum_of_cancelling_samples :
    [F64.fin (10 ^ 16), F64.fin 1, F64.fin (-10 ^ 16)].foldl F64.add (F64.fin 0) =
      F64.fin 0 := by
  obtain ⟨b1, b2⟩ := round_big
  have hz : (10 ^ 16 + -10 ^ 16 : ℚ) = 0 := by norm_num
  have h0 : F64.round 0 = F64.fin 0 := by simp [F64.round]
  rw [List.foldl_cons, List.foldl_cons, List.foldl_cons, List.foldl_nil, add_fin_fin, zero_add,
    b1, add_fin_fin, b2, add_fin_fin, hz, h0]

theorem sum_of_overflowing_samples :
    [F64.fin (2 ^ 1023), F64.fin (2 ^ 1023)].foldl F64.add (F64.fin 0) = F64.inf false := by
  obtain ⟨o1, o2⟩ := round_overflow
  rw [List.foldl_cons, List.foldl_cons, List.foldl_nil, add_fin_fin, zero_add, o1, add_fin_fin,
    o2]

/-- C17 as stated fails.  The samples `10^16`, `1`, `-10^16` are `float64` values; in a
window of three their mean comes out as 0, because `10^16 + 1` rounds to `10^16`, while
their arithmetic mean is 1/3.  The samples `2^1023`, `2^1023` in a window of two give
`+Inf`, because their sum overflows, while their arithmetic mean is `2^1023`. -/
theorem float_mean_is_not_arithmetic_mean :
    F64.round (10 ^ 16) = F64.fin (10 ^ 16) ∧ F64.round 1 = F64.fin 1 ∧
    F64.round (-10 ^ 16) = F64.fin (-10 ^ 16) ∧
    ((NewCircularBuffer 3).addAll
      [F64.fin (10 ^ 16), F64.fin 1, F64.fin (-10 ^ 16)]).getMean = F64.fin 0 ∧
    arithmeticMean (lastSamples (min 3 3) [10 ^ 16, 1, -10 ^ 16]) = 1 / 3 ∧
    F64.round (2 ^ 1023) = F64.fin (2 ^ 1023) ∧
    ((NewCircularBuffer 2).addAll [F64.fin (2 ^ 1023), F64.fin (2 ^ 1023)]).getMean =
      F64.inf false ∧
    arithmeticMean (lastSamples (min 2 2) [2 ^ 1023, 2 ^ 1023]) = 2 ^ 1023 := by
  obtain ⟨b1, _⟩ := round_big
  obtain ⟨o1, _⟩ := round_overflow
  have hone : F64.round 1 = F64.fin 1 := by
    have := round_intCast 1 (by norm_num)
    simpa using this
  have hthree : F64.ofInt ((3 : Nat) : Int) = F64.fin 3 := by
    have := ofInt_of_natAbs_le 3 (by norm_num)
    simpa using this
  have htwo : F64.ofInt ((2 : Nat) : Int) = F64.fin 2 := by
    have := ofInt_of_natAbs_le 2 (by norm_num)
    simpa using this
  have hneg : F64.round (-10 ^ 16) = F64.fin (-10 ^ 16) := by
    have hu : F64.ulpExp (-10 ^ 16) = 1 := by
      have := ulpExp_big.1
      unfold F64.ulpExp at this ⊢
      rw [abs_neg]
      exact this
    refine round_of_multiple _ (-(5 * 10 ^ 15)) ?_ (by norm_num [abs_of_pos])
    rw [hu]
    norm_num
  have hN3 : ((NewCircularBuffer 3).addAll
      [F64.fin (10 ^ 16), F64.fin 1, F64.fin (-10 ^ 16)]).getN = 3 := rfl
  have hv3 : ((NewCircularBuffer 3).addAll
      [F64.fin (10 ^ 16), F64.fin 1, F64.fin (-10 ^ 16)]).values =
      [F64.fin (10 ^ 16), F64.fin 1, F64.fin (-10 ^ 16)] := rfl
  have ht3 : List.take 3 [F64.fin (10 ^ 16), F64.fin 1, F64.fin (-10 ^ 16)] =
      [F64.fin (10 ^ 16), F64.fin 1, F64.fin (-10 ^ 16)] := rfl
  have hN2 : ((NewCircularBuffer 2).addAll [F64.fin (2 ^ 1023), F64.fin (2 ^ 1023)]).getN = 2 :=
    rfl
  have hv2 : ((NewCircularBuffer 2).addAll [F64.fin (2 ^ 1023), F64.fin (2 ^ 1023)]).values =
      [F64.fin (2 ^ 1023), F64.fin (2 ^ 1023)] := rfl
  have ht2 : List.take 2 [F64.fin (2 ^ 1023), F64.fin (2 ^ 1023)] =
      [F64.fin (2 ^ 1023), F64.fin (2 ^ 1023)] := rfl
  refine ⟨b1, hone, hneg, ?_, by norm_num [arithmeticMean, lastSamples], o1, ?_,
    by norm_num [arithmeticMean, lastSamples]⟩
  · unfold CircularBuffer.getMean
    rw [hN3, hv3, if_neg (by norm_num), hthree, ht3, sum_of_cancelling_samples]
    simp [F64.round, F64.div]
  · unfold CircularBuffer.getMean
    rw [hN2, hv2, if_neg (by norm_num), htwo, ht2, sum_of_overflowing_samples]
    simp [F64.div]

/-- C18: the antenna alias of a sensor is its device id, a dash and the decimal
rendering of the antenna id; it depends on no other field of the sensor. -/
theorem antenna_alias_is_device_dash_antenna (d : String) (n : Int) :
    (NewRfidSensor d).getAntennaAlias n = d ++ "-" ++ itoa n ∧
    (∀ s : RfidSensor, s.DeviceId = d →
      s.getAntennaAlias n = (NewRfidSensor d).getAntennaAlias n) ∧
    (NewRfidSensor "RSP-3F7DAC").getAntennaAlias 0 = "RSP-3F7DAC-0" ∧
    (NewRfidSensor "RSP-150000").getAntennaAlias 10 = "RSP-150000-10" ∧
    (NewRfidSensor "RSP-999999").getAntennaAlias 3 = "RSP-999999-3" := by
  refine ⟨rfl, ?_, by decide, by decide, by decide⟩
  intro s hs
  simp [RfidSensor.getAntennaAlias, NewRfidSensor, hs]

theorem processRead_below (p : EngineParams)
    (readKnown : TagRef → RfidSensor → TagRead → TagRef × List TagEvent)
    (refs : TagRefs) (sensor : RfidSensor) (read : TagRead)
    (h : sensor.belowFloor read.rssi = true) :
    processRead p readKnown refs sensor read = (refs, []) := by
  unfold processRead
  rw [if_pos h]

theorem processRead_pos_unknown (p : EngineParams)
    (readKnown : TagRef → RfidSensor → TagRead → TagRef × List TagEvent)
    (refs : TagRefs) (sensor : RfidSensor) (read : TagRead)
    (hpos : sensor.Personality = Personality.POS)
    (hU : stateOf refs read.epc = TagState.Unknown) :
    processRead p readKnown refs sensor read = (refs, []) := by
  unfold processRead
  split_ifs <;> rfl

theorem processRead_arrive (p : EngineParams)
    (readKnown : TagRef → RfidSensor → TagRead → TagRef × List TagEvent)
    (refs : TagRefs) (sensor : RfidSensor) (read : TagRead)
    (hfloor : sensor.belowFloor read.rssi = false)
    (hpos : sensor.Personality ≠ Personality.POS)
    (hU : stateOf refs read.epc = TagState.Unknown) :
    processRead p readKnown refs sensor read =
      (setRef refs read.epc (newTagRef p sensor read), [arrivedEvent sensor read]) := by
  unfold processRead
  rw [if_neg (by simp [hfloor]), if_pos hU, if_neg hpos]

/-- C19: for a sensor with floor `f`, a read below `f` leaves the table of `TagRef`s as
it is and emits nothing; a read at or above `f` on a non-POS sensor of an `Unknown` EPC
makes it `Present`, located at that sensor's antenna and in its facility. -/
theorem min_rssi_filter_and_arrival (p : EngineParams)
    (readKnown : TagRef → RfidSensor → TagRead → TagRef × List TagEvent)
    (refs : TagRefs) (sensor : RfidSensor) (read : TagRead) (f : Int)
    (hf : sensor.minRssiDbm10X = some f) :
    (read.rssi < f → processRead p readKnown refs sensor read = (refs, [])) ∧
    (f ≤ read.rssi → sensor.Personality ≠ Personality.POS →
      stateOf refs read.epc = TagState.Unknown →
      stateOf (processRead p readKnown refs sensor read).1 read.epc = TagState.Present ∧
      ∃ ref : TagRef, (processRead p readKnown refs sensor read).1 read.epc = some ref ∧
        ref.Location = sensor.getAntennaAlias read.antenna_id ∧
        ref.FacilityID = sensor.FacilityId) := by
  constructor
  · intro h
    exact processRead_below p readKnown refs sensor read (by simp [RfidSensor.belowFloor, hf, h])
  · intro h hpos hU
    rw [processRead_arrive p readKnown refs sensor read
      (by simp [RfidSensor.belowFloor, hf, h]) hpos hU]
    exact ⟨by simp [stateOf, setRef, newTagRef], newTagRef p sensor read,
      by simp [setRef], rfl, rfl⟩

/-- C19 at the floor -600: the read at -620 leaves no tag, the read at -580 arrives. -/
theorem min_rssi_filter_and_arrival_witness :
    backSensor.minRssiDbm10X = some (-600) ∧
    processRead exampleParams keepRef noRefs backSensor weakRead = (noRefs, []) ∧
    stateOf (processRead exampleParams keepRef noRefs backSensor goodRead).1 goodRead.epc
      = TagState.Present :=
  ⟨rfl,
    (min_rssi_filter_and_arrival exampleParams keepRef noRefs backSensor weakRead (-600) rfl).1 (by decide),
    ((min_rssi_filter_and_arrival exampleParams keepRef noRefs backSensor goodRead (-600) rfl).2 (by decide) (by decide)
      (by decide)).1⟩

/-- C20, amended: any number of reads of an `Unknown` tag from a POS sensor leave it
`Unknown` and emit nothing; a following read from a non-POS sensor that is not below
that sensor's floor makes it `Present`. -/
theorem pos_reads_keep_unknown_then_arrival (p : EngineParams)
    (readKnown : TagRef → RfidSensor → TagRead → TagRef × List TagEvent)
    (refs : TagRefs) (pos : RfidSensor) (reads : List TagRead) (epc : String)
    (hpos : pos.Personality = Personality.POS)
    (hU : stateOf refs epc = TagState.Unknown)
    (hreads : ∀ r ∈ reads, r.epc = epc) :
    processReads p readKnown refs pos reads = (refs, []) ∧
    stateOf (processReads p readKnown refs pos reads).1 epc = TagState.Unknown ∧
    ∀ (sensor : RfidSensor) (read : TagRead), read.epc = epc →
      sensor.Personality ≠ Personality.POS → sensor.belowFloor read.rssi = false →
      stateOf (processRead p readKnown (processReads p readKnown refs pos reads).1 sensor read).1
        epc = TagState.Present := by
  have hall : processReads p readKnown refs pos reads = (refs, []) := by
    induction reads with
    | nil => rfl
    | cons r rs ih =>
      have hr : r.epc = epc := hreads r (List.mem_cons_self _ _)
      have h1 := processRead_pos_unknown p readKnown refs pos r hpos (by rw [hr]; exact hU)
      rw [processReads, h1]
      simp only [List.nil_append]
      rw [ih (fun x hx => hreads x (List.mem_cons_of_mem _ hx))]
  refine ⟨hall, by rw [hall]; exact hU, ?_⟩
  intro sensor read he hnp hfl
  rw [hall]
  subst he
  rw [processRead_arrive p readKnown refs sensor read hfl hnp hU]
  simp [stateOf, setRef, newTagRef]

/-- C20, amended, at three POS reads of `E2`. -/
theorem pos_reads_keep_unknown_then_arrival_witness :
    posSensor.Personality = Personality.POS ∧ stateOf noRefs "E2" = TagState.Unknown ∧
    (∀ r ∈ [goodRead, goodRead, goodRead], r.epc = "E2") ∧
    (processReads exampleParams keepRef noRefs posSensor [goodRead, goodRead, goodRead]
        = (noRefs, []) ∧
      stateOf (processReads exampleParams keepRef noRefs posSensor
        [goodRead, goodRead, goodRead]).1 "E2" = TagState.Unknown ∧
      ∀ (sensor : RfidSensor) (read : TagRead), read.epc = "E2" →
        sensor.Personality ≠ Personality.POS → sensor.belowFloor read.rssi = false →
        stateOf (processRead exampleParams keepRef
          (processReads exampleParams keepRef noRefs posSensor
            [goodRead, goodRead, goodRead]).1 sensor read).1 "E2" = TagState.Present) :=
  ⟨rfl, by decide, by decide,
    pos_reads_keep_unknown_then_arrival exampleParams keepRef noRefs posSensor [goodRead, goodRead, goodRead] "E2" rfl
      (by decide) (by decide)⟩

/-- C20 as stated fails: after a POS read of `E3`, a read from a non-POS sensor whose
floor is above the read's RSSI leaves the tag `Unknown`. -/
theorem pos_then_weak_read_stays_unknown :
    posSensor.Personality = Personality.POS ∧
    backSensor.Personality ≠ Personality.POS ∧
    stateOf noRefs "E3" = TagState.Unknown ∧
    stateOf (processRead exampleParams keepRef
      (processReads exampleParams keepRef noRefs posSensor [weakRead]).1 backSensor weakRead).1
      "E3" = TagState.Unknown := by
  decide

/-! ## The three kinds of tag, and `IsEqual` as a relation -/

/-- C24: for every tag exactly one of `IsEmpty`, `IsShippingNoticeEntry` and
`IsTagReadByRspController` is true; an empty tag is not a shipping-notice entry. -/
theorem tag_is_exactly_one_kind (cfg : AppConfig) (t : Tag) :
    ((t.IsEmpty = true ∧ t.IsShippingNoticeEntry cfg = false ∧
        t.IsTagReadByRspController cfg = false) ∨
      (t.IsEmpty = false ∧ t.IsShippingNoticeEntry cfg = true ∧
        t.IsTagReadByRspController cfg = false) ∨
      (t.IsEmpty = false ∧ t.IsShippingNoticeEntry cfg = false ∧
        t.IsTagReadByRspController cfg = true)) ∧
    (t.IsEmpty = true → t.IsShippingNoticeEntry cfg = false) := by
  have hes : t.IsEmpty = true → t.IsShippingNoticeEntry cfg = false := by
    intro hE
    unfold Tag.IsShippingNoticeEntry
    rw [if_pos (Or.inl (IsEmpty_EpcContext t hE))]
  refine ⟨?_, hes⟩
  cases hE : t.IsEmpty with
  | true =>
    left
    exact ⟨rfl, hes hE, by simp [Tag.IsTagReadByRspController, hE]⟩
  | false =>
    right
    cases hS : t.IsShippingNoticeEntry cfg with
    | true => left; exact ⟨rfl, rfl, by simp [Tag.IsTagReadByRspController, hS]⟩
    | false => right; exact ⟨rfl, rfl, by simp [Tag.IsTagReadByRspController, hE, hS]⟩

/-- C26: two tags that agree on every field other than `Epc`, `URI`, `ProductID`,
`Confidence` and `CycleCount` have the same `IsShippingNoticeEntry`, for the same
configured ASN facility. -/
theorem isShippingNoticeEntry_ignores_label_fields (cfg : AppConfig) (a b : Tag)
    (h : a.FilterValue = b.FilterValue ∧ a.Tid = b.Tid ∧
      a.EpcEncodeFormat = b.EpcEncodeFormat ∧ a.FacilityID = b.FacilityID ∧
      a.Event = b.Event ∧ a.Arrived = b.Arrived ∧ a.LastRead = b.LastRead ∧
      a.Source = b.Source ∧ a.LocationHistory = b.LocationHistory ∧
      a.EpcState = b.EpcState ∧ a.QualifiedState = b.QualifiedState ∧
      a.EpcContext = b.EpcContext) :
    a.IsShippingNoticeEntry cfg = b.IsShippingNoticeEntry cfg := by
  obtain ⟨h1, h2, h3, h4, h5, h6, h7, h8, h9, h10, h11, h12⟩ := h
  unfold Tag.IsShippingNoticeEntry
  rw [h1, h2, h3, h4, h5, h6, h7, h8, h9, h10, h11, h12]

/-- C26 at a sensor-read tag and its copy with the five fields changed. -/
theorem isShippingNoticeEntry_ignores_label_fields_witness :
    sensorTag.IsShippingNoticeEntry exampleConfig =
      relabelledTag.IsShippingNoticeEntry exampleConfig :=
  isShippingNoticeEntry_ignores_label_fields exampleConfig sensorTag relabelledTag
    ⟨rfl, rfl, rfl, rfl, rfl, rfl, rfl, rfl, rfl, rfl, rfl, rfl⟩

/-- C27: `IsEqual` is reflexive, symmetric and transitive on tags. -/
theorem isEqual_is_equivalence (a b c : Tag) :
    a.IsEqual a = true ∧
    (a.IsEqual b = true → b.IsEqual a = true) ∧
    (a.IsEqual b = true → b.IsEqual c = true → a.IsEqual c = true) := by
  refine ⟨?_, ?_, ?_⟩
  · rw [isEqual_iff]
    exact ⟨rfl, rfl, rfl, rfl, rfl, rfl, rfl, rfl, rfl, rfl, rfl, rfl, rfl, rfl⟩
  · rw [isEqual_iff, isEqual_iff]
    rintro ⟨h1, h2, h3, h4, h5, h6, h7, h8, h9, h10, h11, h12, h13, h14⟩
    exact ⟨h1.symm, h2.symm, h3.symm, h4.symm, h5.symm, h6.symm, h7.symm, h8.symm, h9.symm,
      h10.symm, h11.symm, h12.symm, h13.symm, h14.symm⟩
  · rw [isEqual_iff, isEqual_iff, isEqual_iff]
    rintro ⟨h1, h2, h3, h4, h5, h6, h7, h8, h9, h10, h11, h12, h13, h14⟩
      ⟨g1, g2, g3, g4, g5, g6, g7, g8, g9, g10, g11, g12, g13, g14⟩
    exact ⟨h1.trans g1, h2.trans g2, h3.trans g3, h4.trans g4, h5.trans g5, h6.trans g6,
      h7.trans g7, h8.trans g8, h9.trans g9, h10.trans g10, h11.trans g11, h12.trans g12,
      h13.trans g13, h14.trans g14⟩

/-- C27 at three tags that differ in `FilterValue` and `CycleCount`. -/
theorem isEqual_is_equivalence_witness :
    pallet.IsEqual carton = true ∧ carton.IsEqual { carton with CycleCount := true } = true ∧
    carton.IsEqual pallet = true ∧ pallet.IsEqual { carton with CycleCount := true } = true :=
  ⟨by decide, by decide,
    (isEqual_is_equivalence pallet carton { carton with CycleCount := true }).2.1 (by decide),
    (isEqual_is_equivalence pallet carton { carton with CycleCount := true }).2.2 (by decide) (by decide)⟩

/-- C30: for a notification with a non-empty `run_state`, `Validate` returns what the
embedded notification's `Validate` returns, and fails exactly when that one fails. -/
theorem validate_defers_to_notification {N : Type} (validateNotification : N → Option String)
    (notif : SchedulerRunState N) (h : notif.Params.RunState ≠ "") :
    notif.Validate validateNotification = validateNotification notif.Notification ∧
    (notif.Validate validateNotification ≠ none ↔
      validateNotification notif.Notification ≠ none) := by
  have he : notif.Validate validateNotification = validateNotification notif.Notification := by
    unfold SchedulerRunState.Validate
    rw [if_neg h]
  exact ⟨he, by rw [he]⟩

/-- C30 at a notification with the run state `PAUSED`, with an embedded notification
that is invalid and with one that is valid. -/
theorem validate_defers_to_notification_witness :
    pausedNotification.Params.RunState ≠ "" ∧
    (pausedNotification.Validate (fun _ => some "missing jsonrpc version") =
        some "missing jsonrpc version" ∧
      (pausedNotification.Validate (fun _ => some "missing jsonrpc version") ≠ none ↔
        (some "missing jsonrpc version" : Option String) ≠ none)) ∧
    pausedNotification.Validate (fun _ => none) = none :=
  ⟨by decide,
    validate_defers_to_notification (fun _ => some "missing jsonrpc version")
      pausedNotification (by decide),
    (validate_defers_to_notification (fun _ => none) pausedNotification (by decide)).1⟩


/-! ## A rejected payload is not rolled back -/

/-- The loop over a list whose ASNs before the first one missing data are processed
without error ends where the loop over those ASNs alone ends, with the missing-data
error. -/
theorem processASNs_append_missing {σ : Type} (cfg : AppConfig) (env : Env σ)
    (pre : List AdvanceShippingNotice) (bad : AdvanceShippingNotice)
    (post : List AdvanceShippingNotice) (db : σ) (acc : Acc)
    (hpre : (processASNs cfg env pre db acc).err = none)
    (hbad : asnMissingData bad = true) :
    (processASNs cfg env (pre ++ bad :: post) db acc).db = (processASNs cfg env pre db acc).db ∧
    (processASNs cfg env (pre ++ bad :: post) db acc).acc = (processASNs cfg env pre db acc).acc ∧
    (processASNs cfg env (pre ++ bad :: post) db acc).err = some "ASN is missing data" := by
  induction pre generalizing db acc with
  | nil =>
    simp only [List.nil_append]
    rw [processASNs]
    simp [hbad, processASNs]
  | cons a rest ih =>
    simp only [List.cons_append]
    rw [processASNs] at hpre
    rw [processASNs, processASNs]
    by_cases ha : asnMissingData a = true
    · simp [ha] at hpre
    · simp only [ha, Bool.false_eq_true, if_false] at hpre ⊢
      split_ifs at hpre ⊢ with hlen
      · split at hpre
        · simp at hpre
        · rename_i db1 heq
          exact ih _ _ hpre
      · exact ih _ _ hpre

/-- C25: when the ASN at position `k > 0` is the first one missing data, so that the
ASNs before it were processed without error, `processShippingNotice` returns the
missing-data error and leaves the store and the queue as the loop over the ASNs at
positions `0..k-1` alone left them: their `Replace` calls are not undone and nothing
of ASN `k` or a later one is looked up, queued or written. -/
theorem missing_data_rejection_is_not_atomic {σ : Type} (cfg : AppConfig) (env : Env σ)
    (pre : List AdvanceShippingNotice) (bad : AdvanceShippingNotice)
    (post : List AdvanceShippingNotice) (db : σ)
    (_hk : 0 < pre.length)
    (hpre : (processASNs cfg env pre (env.ProcessIncomingASNList db (pre ++ bad :: post))
      ⟨[], []⟩).err = none)
    (hbad : bad.ID = "" ∨ bad.EventTime = "" ∨ bad.SiteID = "" ∨ bad.Items = none) :
    (processShippingNotice cfg env (Except.ok (pre ++ bad :: post)) db).err =
      some "ASN is missing data" ∧
    (processShippingNotice cfg env (Except.ok (pre ++ bad :: post)) db).db =
      (processASNs cfg env pre (env.ProcessIncomingASNList db (pre ++ bad :: post))
        ⟨[], []⟩).db ∧
    (processShippingNotice cfg env (Except.ok (pre ++ bad :: post)) db).acc =
      (processASNs cfg env pre (env.ProcessIncomingASNList db (pre ++ bad :: post))
        ⟨[], []⟩).acc := by
  have hm : asnMissingData bad = true := by simpa [asnMissingData] using hbad
  obtain ⟨h1, h2, h3⟩ := processASNs_append_missing cfg env pre bad post _ _ hpre hm
  exact ⟨h3, h1, h2⟩

/-- C25 at a payload of three notices whose second has no site id, on the empty table
store: the error is returned and the store holds `E9` of the first notice only. -/
theorem missing_data_rejection_is_not_atomic_witness :
    0 < [exampleASN].length ∧
    (processASNs exampleConfig exampleEnv [exampleASN]
      (exampleEnv.ProcessIncomingASNList [] ([exampleASN] ++ noSiteASN :: [otherASN]))
      ⟨[], []⟩).err = none ∧
    (noSiteASN.ID = "" ∨ noSiteASN.EventTime = "" ∨ noSiteASN.SiteID = "" ∨
      noSiteASN.Items = none) ∧
    ((processShippingNotice exampleConfig exampleEnv
        (Except.ok ([exampleASN] ++ noSiteASN :: [otherASN])) []).err =
      some "ASN is missing data" ∧
    (processShippingNotice exampleConfig exampleEnv
        (Except.ok ([exampleASN] ++ noSiteASN :: [otherASN])) []).db =
      (processASNs exampleConfig exampleEnv [exampleASN]
        (exampleEnv.ProcessIncomingASNList [] ([exampleASN] ++ noSiteASN :: [otherASN]))
        ⟨[], []⟩).db ∧
    (processShippingNotice exampleConfig exampleEnv
        (Except.ok ([exampleASN] ++ noSiteASN :: [otherASN])) []).acc =
      (processASNs exampleConfig exampleEnv [exampleASN]
        (exampleEnv.ProcessIncomingASNList [] ([exampleASN] ++ noSiteASN :: [otherASN]))
        ⟨[], []⟩).acc) ∧
    (processShippingNotice exampleConfig exampleEnv
        (Except.ok ([exampleASN] ++ noSiteASN :: [otherASN])) []).db.map (fun t => t.Epc) =
      ["E9"] :=
  ⟨by decide, by decide, by decide,
    missing_data_rejection_is_not_atomic exampleConfig exampleEnv [exampleASN] noSiteASN [otherASN] [] (by decide) (by decide)
      (by decide),
    by decide⟩

/-! ## The ticker periods and `markDepartedIfUnseen` -/

/-- Wrap-around leaves the value of an `int64` as it is. -/
theorem wrapInt64_of_inInt64 (x : Int) (h : inInt64 x) : wrapInt64 x = x := by
  unfold inInt64 at h
  unfold wrapInt64
  omega

/-- C22 as stated fails: for the threshold 46116860184275, which is at least 5, the
period of the aggregate-departed ticker overflows the `int64` of a `Duration` and is
negative. -/
theorem aggregate_period_overflows :
    5 ≤ (46116860184275 : Int) ∧ aggregateDepartedPeriod 46116860184275 < 0 := by
  decide

/-- C22, amended: for every `AggregateDepartedThresholdMillis` from 5 to 46116860184274
the period of the aggregate-departed ticker is `floor(x / 5)` milliseconds and is
strictly positive; the period of the age-out ticker is one hour. -/
theorem aggregate_period_is_fifth_in_millis (x : Int) (h5 : 5 ≤ x) (hmax : x ≤ 46116860184274) :
    aggregateDepartedPeriod x = (x / 5) * timeMillisecond ∧
    0 < aggregateDepartedPeriod x ∧
    ageoutPeriod = timeHour := by
  have hq : Int.tdiv x 5 = x / 5 := Int.tdiv_eq_ediv (by omega) (by omega)
  have h1 : 1 ≤ x / 5 := by omega
  have h2 : x / 5 ≤ 9223372036854 := by omega
  have e : aggregateDepartedPeriod x = (x / 5) * timeMillisecond := by
    unfold aggregateDepartedPeriod timeMillisecond
    rw [hq, wrapInt64_of_inInt64 (x / 5) (by unfold inInt64; omega),
      wrapInt64_of_inInt64 _ (by unfold inInt64; omega)]
  refine ⟨e, ?_, by decide⟩
  rw [e]
  unfold timeMillisecond
  omega

/-- C22, amended, at a threshold of thirty seconds. -/
theorem aggregate_period_is_fifth_in_millis_witness :
    (5 : Int) ≤ 30000 ∧ (30000 : Int) ≤ 46116860184274 ∧
    (aggregateDepartedPeriod 30000 = (30000 / 5) * timeMillisecond ∧
      0 < aggregateDepartedPeriod 30000 ∧ ageoutPeriod = timeHour) :=
  ⟨by decide, by decide, aggregate_period_is_fifth_in_millis 30000 (by decide) (by decide)⟩

/-- C23: when `minutes*60`, `minutes*60*1000` and `Timestamp + minutes*60*1000` do not
overflow, the event type after `markDepartedIfUnseen` is `departed` exactly when it was
`departed` already, or it was `cycle_count`, the facility is a key of the map and
`Timestamp + minutes*60*1000 ≤ now`; in every other case the event type is unchanged. -/
theorem markDepartedIfUnseen_departed_iff (e : jsonrpc.TagEvent) (m : AgeOuts) (now : Int)
    (hno : ∀ minutes, m e.FacilityID = some minutes →
      inInt64 (minutes * 60) ∧ inInt64 (minutes * 60 * 1000) ∧
      inInt64 (e.Timestamp + minutes * 60 * 1000)) :
    ((markDepartedIfUnseen e m now).1.EventType = "departed" ↔
      (e.EventType = "departed" ∨
        (e.EventType = "cycle_count" ∧
          ∃ minutes, m e.FacilityID = some minutes ∧
            e.Timestamp + minutes * 60 * 1000 ≤ now))) ∧
    (¬ (e.EventType = "cycle_count" ∧
          ∃ minutes, m e.FacilityID = some minutes ∧
            e.Timestamp + minutes * 60 * 1000 ≤ now) →
      (markDepartedIfUnseen e m now).1.EventType = e.EventType) := by
  unfold markDepartedIfUnseen
  by_cases hc : e.EventType = "cycle_count"
  · have hnd : e.EventType ≠ "departed" := by rw [hc]; decide
    rw [if_pos hc]
    cases hm : m e.FacilityID with
    | none => simp [hc]
    | some minutes =>
      obtain ⟨h1, h2, h3⟩ := hno minutes hm
      simp only [wrapInt64_of_inInt64 _ h1, wrapInt64_of_inInt64 _ h2,
        wrapInt64_of_inInt64 _ h3]
      by_cases hle : e.Timestamp + minutes * 60 * 1000 ≤ now
      · simp [hle, hc]
      · simp [hle, hc]
  · rw [if_neg hc]
    simp [hc]

/-- C23 at a cycle-count event of a facility with an age-out of ten minutes: it departs at
`now = 1600000` and not at `now = 1599999`. -/
theorem markDepartedIfUnseen_departed_iff_witness :
    (∀ minutes, exampleAgeOuts cycleCountEvent.FacilityID = some minutes →
      inInt64 (minutes * 60) ∧ inInt64 (minutes * 60 * 1000) ∧
      inInt64 (cycleCountEvent.Timestamp + minutes * 60 * 1000)) ∧
    (((markDepartedIfUnseen cycleCountEvent exampleAgeOuts 1600000).1.EventType = "departed" ↔
      (cycleCountEvent.EventType = "departed" ∨
        (cycleCountEvent.EventType = "cycle_count" ∧
          ∃ minutes, exampleAgeOuts cycleCountEvent.FacilityID = some minutes ∧
            cycleCountEvent.Timestamp + minutes * 60 * 1000 ≤ 1600000))) ∧
    (¬ (cycleCountEvent.EventType = "cycle_count" ∧
          ∃ minutes, exampleAgeOuts cycleCountEvent.FacilityID = some minutes ∧
            cycleCountEvent.Timestamp + minutes * 60 * 1000 ≤ 1600000) →
      (markDepartedIfUnseen cycleCountEvent exampleAgeOuts 1600000).1.EventType =
        cycleCountEvent.EventType)) ∧
    (markDepartedIfUnseen cycleCountEvent exampleAgeOuts 1600000).1.EventType = "departed" ∧
    (markDepartedIfUnseen cycleCountEvent exampleAgeOuts 1599999).1.EventType = "cycle_count" :=
  have hno : ∀ minutes, exampleAgeOuts cycleCountEvent.FacilityID = some minutes →
      inInt64 (minutes * 60) ∧ inInt64 (minutes * 60 * 1000) ∧
      inInt64 (cycleCountEvent.Timestamp + minutes * 60 * 1000) := by
    intro minutes h
    have h10 : minutes = 10 := by
      have : exampleAgeOuts cycleCountEvent.FacilityID = some 10 := by decide
      rw [this] at h
      exact (Option.some.inj h).symm
    subst h10
    unfold inInt64
    decide
  ⟨hno, markDepartedIfUnseen_departed_iff cycleCountEvent exampleAgeOuts 1600000 hno, by decide, by decide⟩

/-- An event that is not a cycle count is left as it is. -/
theorem markDeparted_eq_self (e : jsonrpc.TagEvent) (m : AgeOuts) (now : Int)
    (h : e.EventType ≠ "cycle_count") : markDepartedIfUnseen e m now = (e, m) := by
  unfold markDepartedIfUnseen
  rw [if_neg h]

/-- The call leaves the event as it is or sets its event type to `departed`. -/
theorem markDeparted_cases (e : jsonrpc.TagEvent) (m : AgeOuts) (now : Int) :
    markDepartedIfUnseen e m now = (e, m) ∨
    markDepartedIfUnseen e m now = ({ e with EventType := "departed" }, m) := by
  unfold markDepartedIfUnseen
  split_ifs with hc
  · split
    · split_ifs
      · right; rfl
      · left; rfl
    · left; rfl
  · left; rfl

/-- C29: `markDepartedIfUnseen` leaves the EPC, the timestamp, the facility id, the
location and the tid of the event and the map as they were, and a second call with the
same map and time changes nothing further. -/
theorem markDepartedIfUnseen_changes_event_type_only (e : jsonrpc.TagEvent) (m : AgeOuts) (now : Int) :
    (markDepartedIfUnseen e m now).1.Epc = e.Epc ∧
    (markDepartedIfUnseen e m now).1.Timestamp = e.Timestamp ∧
    (markDepartedIfUnseen e m now).1.FacilityID = e.FacilityID ∧
    (markDepartedIfUnseen e m now).1.Location = e.Location ∧
    (markDepartedIfUnseen e m now).1.Tid = e.Tid ∧
    (markDepartedIfUnseen e m now).2 = m ∧
    markDepartedIfUnseen (markDepartedIfUnseen e m now).1 (markDepartedIfUnseen e m now).2 now =
      markDepartedIfUnseen e m now := by
  rcases markDeparted_cases e m now with h | h
  · refine ⟨by rw [h], by rw [h], by rw [h], by rw [h], by rw [h], by rw [h], ?_⟩
    rw [h]
    exact h
  · refine ⟨by rw [h], by rw [h], by rw [h], by rw [h], by rw [h], by rw [h], ?_⟩
    rw [h]
    exact markDeparted_eq_self _ m now
      (show ("departed" : String) ≠ "cycle_count" by decide)

/-! ## `processEvents` -/

/-- The body of the loop records its reading and nothing else as handled. -/
theorem processReading_handled {σ : Type} (env : EventsEnv σ)
    (w : World σ env.InventoryEvent) (reading : Reading) :
    (processReading env w reading).1.handled = w.handled ++ [reading] := by
  unfold processReading
  dsimp only
  split_ifs <;> (repeat' split) <;> rfl

/-- A reading whose name matches no case is skipped without error. -/
theorem processReading_unknown {σ : Type} (env : EventsEnv σ)
    (w : World σ env.InventoryEvent) (reading : Reading)
    (h : reading.Name ∉ knownReadingNames) :
    (processReading env w reading).2 = none := by
  simp only [knownReadingNames, List.mem_cons, List.mem_singleton, not_or, List.mem_nil_iff,
    or_false] at h
  obtain ⟨h1, h2, h3, h4, h5, h6, h7⟩ := h
  unfold processReading
  simp only [if_neg h1, if_neg h2, if_neg h3, if_neg h4, if_neg h5, if_neg h6, if_neg h7]

/-- A loop that ends without error has handled every reading. -/
theorem processReadings_handled {σ : Type} (env : EventsEnv σ) (rs : List Reading)
    (w w1 : World σ env.InventoryEvent)
    (h : processReadings env rs w = (w1, none)) :
    w1.handled = w.handled ++ rs := by
  induction rs generalizing w with
  | nil =>
    simp only [processReadings, Prod.mk.injEq, and_true] at h
    simp [← h]
  | cons r rest ih =>
    rw [processReadings] at h
    have hh := processReading_handled env w r
    split at h
    · simp at h
    · rename_i w2 heq
      rw [heq] at hh
      rw [ih w2 h, hh]
      simp

/-- The loop returns with the error of the first reading that fails. -/
theorem processReadings_first_failure {σ : Type} (env : EventsEnv σ)
    (pre : List Reading) (r : Reading) (post : List Reading)
    (w w1 w2 : World σ env.InventoryEvent) (e : String)
    (hpre : processReadings env pre w = (w1, none))
    (hr : processReading env w1 r = (w2, some e)) :
    processReadings env (pre ++ r :: post) w = (w2, some e) := by
  induction pre generalizing w with
  | nil =>
    simp only [processReadings, Prod.mk.injEq, and_true] at hpre
    subst hpre
    simp only [List.nil_append]
    rw [processReadings, hr]
  | cons a rest ih =>
    rw [processReadings] at hpre
    simp only [List.cons_append]
    rw [processReadings]
    split at hpre
    · simp at hpre
    · rename_i w3 heq
      exact ih w3 hpre

/-- C28, amended: `processEvents` never returns `true` as its continue flag.  On an event
with at least one reading: when the readings before `r` are processed without error and
`r` returns the error `e`, the result is `(false, e)` and exactly the readings up to and
including `r` have been handled; when no reading fails the result is `(false, nil)` and
every reading has been handled.  A reading whose name matches no known type does not
fail. -/
theorem processEvents_stops_at_first_failure {σ : Type} (env : EventsEnv σ) (w : World σ env.InventoryEvent) :
    (∀ params : List Param, (processEvents env params w).2.1 = false) ∧
    (∀ (pre : List Reading) (r : Reading) (post : List Reading)
        (w1 w2 : World σ env.InventoryEvent) (e : String),
      processReadings env pre w = (w1, none) →
      processReading env w1 r = (w2, some e) →
      processEvents env [Param.event ⟨pre ++ r :: post⟩] w = (w2, (false, some e)) ∧
      w2.handled = w.handled ++ pre ++ [r]) ∧
    (∀ (rs : List Reading) (w1 : World σ env.InventoryEvent),
      rs ≠ [] →
      processReadings env rs w = (w1, none) →
      processEvents env [Param.event ⟨rs⟩] w = (w1, (false, none)) ∧
      w1.handled = w.handled ++ rs) ∧
    (∀ (w0 : World σ env.InventoryEvent) (r : Reading),
      r.Name ∉ knownReadingNames → (processReading env w0 r).2 = none) := by
  refine ⟨?_, ?_, ?_, fun w0 r h => processReading_unknown env w0 r h⟩
  · intro params
    unfold processEvents
    split
    · rfl
    · rfl
    · split_ifs
      · rfl
      · split <;> rfl
  · intro pre r post w1 w2 e hpre hr
    have hrun := processReadings_first_failure env pre r post w w1 w2 e hpre hr
    have hlen : ¬ (pre ++ r :: post).length < 1 := by simp
    refine ⟨?_, ?_⟩
    · unfold processEvents
      simp only [hlen, if_false, hrun]
    · have h1 := processReadings_handled env pre w w1 hpre
      have h2 := processReading_handled env w1 r
      rw [hr] at h2
      rw [h2, h1]
  · intro rs w1 hne hrun
    have hlen : ¬ rs.length < 1 := by
      have := List.length_pos.mpr hne
      omega
    refine ⟨?_, processReadings_handled env rs w w1 hrun⟩
    unfold processEvents
    simp only [hlen, if_false, hrun]

/-- C28 as stated fails: on an event without readings no reading fails, yet the result is
`(false, error)` with the error `event contains no Readings`, not `(false, nil)`. -/
theorem empty_event_is_rejected :
    (∀ r ∈ ([] : List Reading), (processReading exampleEventsEnv emptyWorld r).2 = none) ∧
    (processEvents exampleEventsEnv [Param.event ⟨[]⟩] emptyWorld).2 =
      (false, some "event contains no Readings") ∧
    (processEvents exampleEventsEnv [Param.event ⟨[]⟩] emptyWorld).2 ≠ (false, none) :=
  ⟨by simp, rfl, by decide⟩

/-- C28, amended, at an event of three readings whose second, a heartbeat, is rejected,
and at an event of one reading of an unknown name. -/
theorem processEvents_stops_at_first_failure_witness :
    processReadings exampleEventsEnv [⟨"unknown_reading", ""⟩] emptyWorld =
      ((processReadings exampleEventsEnv [⟨"unknown_reading", ""⟩] emptyWorld).1, none) ∧
    processReading exampleEventsEnv
      (processReadings exampleEventsEnv [⟨"unknown_reading", ""⟩] emptyWorld).1
      ⟨"controller_heartbeat", "e30="⟩ =
      ((processReading exampleEventsEnv
        (processReadings exampleEventsEnv [⟨"unknown_reading", ""⟩] emptyWorld).1
        ⟨"controller_heartbeat", "e30="⟩).1, some "heartbeat rejected") ∧
    (processEvents exampleEventsEnv
      [Param.event ⟨[⟨"unknown_reading", ""⟩] ++ ⟨"controller_heartbeat", "e30="⟩ ::
        [⟨"ASN_data", "W10="⟩]⟩] emptyWorld).2 = (false, some "heartbeat rejected") ∧
    (processEvents exampleEventsEnv
      [Param.event ⟨[⟨"unknown_reading", ""⟩] ++ ⟨"controller_heartbeat", "e30="⟩ ::
        [⟨"ASN_data", "W10="⟩]⟩] emptyWorld).1.handled =
      [⟨"unknown_reading", ""⟩, ⟨"controller_heartbeat", "e30="⟩] ∧
    (processEvents exampleEventsEnv [Param.event ⟨[⟨"unknown_reading", ""⟩]⟩] emptyWorld).2 =
      (false, none) :=
  have hpre : processReadings exampleEventsEnv [⟨"unknown_reading", ""⟩] emptyWorld =
      ((processReadings exampleEventsEnv [⟨"unknown_reading", ""⟩] emptyWorld).1, none) := rfl
  have hr : processReading exampleEventsEnv
      (processReadings exampleEventsEnv [⟨"unknown_reading", ""⟩] emptyWorld).1
      ⟨"controller_heartbeat", "e30="⟩ =
      ((processReading exampleEventsEnv
        (processReadings exampleEventsEnv [⟨"unknown_reading", ""⟩] emptyWorld).1
        ⟨"controller_heartbeat", "e30="⟩).1, some "heartbeat rejected") := rfl
  have h2 := (processEvents_stops_at_first_failure exampleEventsEnv emptyWorld).2.1 [⟨"unknown_reading", ""⟩]
    ⟨"controller_heartbeat", "e30="⟩ [⟨"ASN_data", "W10="⟩] _ _ _ hpre hr
  have h3 := (processEvents_stops_at_first_failure exampleEventsEnv emptyWorld).2.2.1 [⟨"unknown_reading", ""⟩] _ (by simp) hpre
  ⟨hpre, hr, by rw [h2.1], by rw [h2.1]; exact h2.2, by rw [h3.1]⟩

end Inventory
